import Mathlib

/-!
# dispatch-cpp: the typed publish/subscribe dispatcher

A shallow embedding of `helpers.h`, `listener.h` and `dispatcher.h`.

* Part 1 embeds the compile-time layer of `helpers.h`: C++ types are values of
  `CType`, a trait is a function on `CType`, and an instantiation the compiler
  refuses (a failed `static_assert`, an ill-formed specialisation) is `none`.
* Part 2 embeds the run-time layer: `listener`, the registry `m_listeners` of
  `dispatcher` and its `add`, `remove`, `operator+=`, `operator-=`, `dispatch`.
  A C++ exception thrown by a listener is the `Except.error` result of its
  callable.
-/

namespace dispatch

/-! ## Part 1: types and type traits (helpers.h) -/

mutual
/-- C++ types, to the depth at which the traits of `helpers.h` inspect them. -/
inductive CType where
  /-- The type `void`. -/
  | void_ : CType
  /-- The type `std::nullptr_t`. -/
  | nullptr_t : CType
  /-- A non-template class type that has no call operator (an event class, a receiver). -/
  | cls (name : Nat) : CType
  /-- A non-template class type with exactly one non-template `operator()` (a closure type
  or function object); `call` is `decltype(&T::operator())`. -/
  | functor (name : Nat) (call : CType) : CType
  /-- The type `const T`. -/
  | const_ (t : CType) : CType
  /-- The type `volatile T`. -/
  | volatile_ (t : CType) : CType
  /-- The type `T&`. -/
  | lref (t : CType) : CType
  /-- The type `T&&`. -/
  | rref (t : CType) : CType
  /-- The type `T*`. -/
  | ptr (t : CType) : CType
  /-- The function type `E(Args...)`. -/
  | fn (ret : CType) (args : CTypes) : CType
  /-- The member function pointer type `E(T::*)(Args...)`, with a trailing `const` when
  `isConst` is true. -/
  | memfn (recv : CType) (ret : CType) (args : CTypes) (isConst : Bool) : CType
  /-- A class template instantiation `T<Ts...>` whose parameters are all types. -/
  | tmpl (name : Nat) (args : CTypes) : CType
  /-- A class template instantiation `T<B, Ts...>` with a leading `bool` parameter. -/
  | tmplB (name : Nat) (b : Bool) (args : CTypes) : CType
  deriving DecidableEq
/-- A pack of types `Ts...`. -/
inductive CTypes where
  | nil : CTypes
  | cons (hd : CType) (tl : CTypes) : CTypes
  deriving DecidableEq
end

/-- The template name of `std::function`. -/
def std_function : Nat := 0

/-- Element `N` of a pack (`std::tuple_element<N, std::tuple<Args...>>`), if there is one. -/
def CTypes.get? : CTypes → Nat → Option CType
  | .nil, _ => none
  | .cons t _, 0 => some t
  | .cons _ ts, n + 1 => CTypes.get? ts n

/-- The number of types in a pack (`sizeof...(Args)`). -/
def CTypes.length : CTypes → Nat
  | .nil => 0
  | .cons _ ts => CTypes.length ts + 1

/-- The trait `std::remove_reference`. -/
def remove_reference : CType → CType
  | .lref t => t
  | .rref t => t
  | t => t

/-- The trait `std::remove_cv`: drops every top-level `const` and `volatile`. -/
def remove_cv : CType → CType
  | .const_ t => remove_cv t
  | .volatile_ t => remove_cv t
  | t => t

/-- The trait `std::is_function`. -/
def is_function : CType → Bool
  | .fn _ _ => true
  | _ => false

/-- The trait `std::is_reference`. -/
def is_reference : CType → Bool
  | .lref _ => true
  | .rref _ => true
  | _ => false

/-- The trait `std::is_const`. -/
def is_const : CType → Bool
  | .const_ _ => true
  | .volatile_ t => is_const t
  | _ => false

/-- The trait `std::is_pointer`: an object or function pointer, cv-qualified or not. -/
def is_pointer (t : CType) : Bool :=
  match remove_cv t with
  | .ptr _ => true
  | _ => false

/-- The trait `std::is_member_function_pointer`. -/
def is_member_function_pointer (t : CType) : Bool :=
  match remove_cv t with
  | .memfn _ _ _ _ => true
  | _ => false

/-- The trait `std::add_pointer`. -/
def add_pointer (t : CType) : CType :=
  .ptr (remove_reference t)

/-- The trait `std::remove_pointer`. -/
def remove_pointer (t : CType) : CType :=
  match remove_cv t with
  | .ptr u => u
  | _ => t

/-- The trait `std::decay`: a function becomes a pointer to it, everything else loses its
reference and its top-level cv-qualification (array types are not represented in `CType`). -/
def decay (t : CType) : CType :=
  match remove_reference t with
  | .fn r a => .ptr (.fn r a)
  | u => remove_cv u

/-- The type `const T&` formed from `T`: `const` is ignored on references and functions, and a
reference to a reference collapses to an lvalue reference. -/
def add_const_lref (t : CType) : CType :=
  match t with
  | .lref u => .lref u
  | .rref u => .lref u
  | u => if is_const u || is_function u then .lref u else .lref (.const_ u)

/-- The type that `typeid(T)` identifies: `T` without reference and top-level cv-qualification.
A `std::type_index` built from it is the registry key. -/
def typeid (t : CType) : CType :=
  remove_cv (remove_reference t)

/-- `func_traits<T>`: the result type and the argument pack of a callable type, or `none` where
no specialisation applies and `&T::operator()` is ill-formed. -/
def func_traits : CType → Option (CType × CTypes)
  | .memfn _ r a _ => some (r, a)
  | .ptr (.fn r a) => some (r, a)
  | .functor _ call => func_traits call
  | .tmpl n (.cons (.fn r a) .nil) => if n = std_function then some (r, a) else none
  | _ => none

/-- `func_trait_helper::arg<N>::type`, with its `static_assert(N < arg_count)`. -/
def func_trait_helper.arg (args : CTypes) (N : Nat) : Option CType :=
  if N < args.length then args.get? N else none

/-- `function_param_at<T, N>`. -/
def function_param_at (T : CType) (N : Nat) : Option CType :=
  match func_traits T with
  | some (_, args) => func_trait_helper.arg args N
  | none => none

/-- `full_decay_t<T>`: `std::remove_pointer` of `std::decay`. -/
def full_decay_t (T : CType) : CType :=
  remove_pointer (decay T)

/-- `is_global_function_pointer<T>`. -/
def is_global_function_pointer (T : CType) : Bool :=
  is_function (full_decay_t T)

/-- `sanitize<T>::type`. -/
def sanitize (T : CType) : CType :=
  if is_global_function_pointer T then add_pointer (full_decay_t T) else T

/-- `is_function_pointer<T>`. -/
def is_function_pointer (T : CType) : Bool :=
  is_global_function_pointer T || is_member_function_pointer T

/-- `has_template_params<T>`. -/
def has_template_params : CType → Bool
  | .tmpl _ _ => true
  | .tmplB _ _ _ => true
  | _ => false

mutual
/-- `function_in_binding<T>::type` for a single type: the two template-template
specialisations unwrap an instantiation, the one-type specialisation ends the search. -/
def function_in_binding : CType → Option CType
  | .tmpl _ ts => function_in_binding_pack ts
  | .tmplB _ _ ts => function_in_binding_pack ts
  | t => some (if is_function_pointer t then sanitize t else .nullptr_t)
/-- `function_in_binding<T, Ts...>::type`. An empty pack names no specialisation; with two or
more types the primary template applies, and `std::conditional` instantiates all of its
branches whichever it selects. -/
def function_in_binding_pack : CTypes → Option CType
  | .nil => none
  | .cons t .nil => function_in_binding t
  | .cons t (.cons u us) =>
    match function_in_binding t, function_in_binding_pack (.cons u us) with
    | some a, some b =>
      some (if has_template_params t then a
            else if is_function_pointer t then sanitize t else b)
    | _, _ => none
end

/-- `is_null_pointer<T>`. -/
def is_null_pointer (T : CType) : Bool :=
  decide (T = .nullptr_t)

/-- `is_function_in_binding<T>`. -/
def is_function_in_binding (T : CType) : Option Bool :=
  (function_in_binding T).map (fun t => !is_null_pointer t)

/-- What the headers use from outside `src/`: facts of the standard library and of the
classes of the program that the types of `CType` do not determine. -/
structure Env where
  /-- The trait `std::is_bind_expression<T>`. -/
  is_bind_expression : CType → Bool
  /-- The trait `std::is_base_of<signal, T>`, for the class `signal` of `signal.h`. -/
  is_base_of_signal : CType → Bool
  /-- Whether `std::function<void(E)>` can be constructed from a `const W&`, given as
  `std_function_constructible E W`: its copy constructor when `W` is that type, else its
  converting constructor, which needs `W` to be copyable and callable with an `E`. -/
  std_function_constructible : CType → CType → Bool
  /-- Whether an lvalue of type `T` can be called with one argument of type `A`, given as
  `is_invocable T A` (the trait `std::is_invocable<T&, A>`). -/
  is_invocable : CType → CType → Bool

/-- Whether the member `std::function<void(E)> m_callable` of `listener<E>` can be
initialised from a callable of type `W`, as both constructors of `listener` do. -/
def std_function_accepts (env : Env) (W E : CType) : Bool :=
  env.std_function_constructible E W

/-- `function_type_for_t<T>`; `std::conditional` instantiates `function_in_binding<T>::type`
for every `T`. -/
def function_type_for_t (env : Env) (T : CType) : Option CType :=
  match function_in_binding T with
  | some F => some (if env.is_bind_expression T then F else T)
  | none => none

/-- The `typedef function_param_at<function_in_binding_t<T>, 0> E` of
`function_wrapper<T, true>`. -/
def function_wrapper.E (T : CType) : Option CType :=
  match function_in_binding T with
  | some F => function_param_at F 0
  | none => none

/-- The return type of `function_wrapper<T>::wrap`, or `none` when `wrap` is ill-formed: `T`
itself, or for a bind expression `std::function<void(const E&)>`, where the body of the
wrapping lambda, `callable(v)` with `v` a `const E&`, has to compile. -/
def function_wrapper.wrap_type (env : Env) (T : CType) : Option CType :=
  if env.is_bind_expression T then
    match function_wrapper.E T with
    | some E =>
      if env.is_invocable T (add_const_lref E) then
        some (.tmpl std_function (.cons (.fn .void_ (.cons (add_const_lref E) .nil)) .nil))
      else none
    | none => none
  else some T

/-- The `static_assert` of `listener<T>` and of `dispatcher::dispatch<T>`. -/
def signal_static_assert (env : Env) (T : CType) : Bool :=
  env.is_base_of_signal (full_decay_t T)

/-! ## Part 2: listeners and the dispatcher (listener.h, dispatcher.h)

Event values are elements of `V`, whatever their declared type; a failure raised by a callable
is an element of `X`. -/

/-- A callable object as `operator+=` and `operator-=` receive it by reference. -/
structure Callable (V X : Type) where
  /-- The static type `T` deduced for the argument. -/
  ty : CType
  /-- The address of the object itself: `std::addressof(p)`. -/
  storage : Nat
  /-- The address of `*p`, read only when `T` is a pointer type. -/
  pointee : Nat
  /-- The words the object holds: the captures of a closure; for a bind expression the address
  of the bound inner function followed by the bound arguments (the receiver first). -/
  contents : List Nat
  /-- What calling the object with an event does: return, or raise a failure. -/
  call : V → Except X Unit

/-- `pointer_memory<T>::address_for(p)`: the pointee of a pointer, else the object itself. -/
def pointer_memory.address_for {V X : Type} (p : Callable V X) : Nat :=
  if is_pointer p.ty then p.pointee else p.storage

/-- `listener<T>`, seen through `handler`: the wrapped `std::function` and the address. -/
structure listener (V X : Type) where
  m_callable : V → Except X Unit
  m_addr : Nat

/-- `listener::operator()`. -/
def listener.call {V X : Type} (l : listener V X) (s : V) : Except X Unit :=
  l.m_callable s

/-- `listener::operator==(std::uintptr_t)`. -/
def listener.eq_addr {V X : Type} (l : listener V X) (addr : Nat) : Bool :=
  l.m_addr == addr

/-- `listener::operator==(const listener<T>& rhs)`. -/
def listener.eq {V X : Type} (l rhs : listener V X) : Bool :=
  l.m_addr == rhs.m_addr

/-- The constructor `listener(const E& callable, std::uintptr_t addr)`. -/
def listener.ctor {V X : Type} (callable : Callable V X) (addr : Nat) : listener V X :=
  ⟨callable.call, addr⟩

/-- The constructor `listener(const E& callable)`. -/
def listener.ctor_infer {V X : Type} (callable : Callable V X) : listener V X :=
  ⟨callable.call, pointer_memory.address_for callable⟩

/-- `std::find_if` over a vector: the position of the first element satisfying `pred`, or the
length of the vector (`end()`) when there is none. -/
def find_if {α : Type} (pred : α → Bool) : List α → Nat
  | [] => 0
  | x :: xs => if pred x then 0 else find_if pred xs + 1

/-- `std::vector::erase` of the element at position `i`. -/
def erase {α : Type} : List α → Nat → List α
  | [], _ => []
  | _ :: xs, 0 => xs
  | x :: xs, i + 1 => x :: erase xs i

/-- The member `m_listeners`: an `std::unordered_map` from type keys to vectors of handlers.
A key without a bucket is `none`; a key with an empty bucket is `some []`. -/
abbrev Registry (V X : Type) := CType → Option (List (listener V X))

/-- The map after `m[key]` has been evaluated: `operator[]` inserts an empty vector under a
key that has none. -/
def Registry.subscript {V X : Type} (m : Registry V X) (key : CType) : Registry V X :=
  match m key with
  | some _ => m
  | none => fun k => if k = key then some [] else m k

/-- The vector found under `key`, empty when the key has none. -/
def Registry.at {V X : Type} (m : Registry V X) (key : CType) : List (listener V X) :=
  (m key).getD []

/-- The map after the vector under `key` has been overwritten with `v`. -/
def Registry.store {V X : Type} (m : Registry V X) (key : CType) (v : List (listener V X)) :
    Registry V X :=
  fun k => if k = key then some v else m k

/-- The class `dispatcher`. -/
structure dispatcher (V X : Type) where
  m_listeners : Registry V X

/-- The constructor `dispatcher::dispatcher()`: no buckets. -/
def dispatcher.empty {V X : Type} : dispatcher V X :=
  ⟨fun _ => none⟩

/-- The listener sequence of the bucket for `key` (empty when there is no bucket). -/
def dispatcher.bucket {V X : Type} (d : dispatcher V X) (key : CType) : List (listener V X) :=
  d.m_listeners.at key

/-- `dispatcher::add<T>(listener<T>* ptr)`; `none` when `listener<T>` fails its
`static_assert`. -/
def dispatcher.add {V X : Type} (env : Env) (d : dispatcher V X) (T : CType)
    (ptr : listener V X) : Option (dispatcher V X) :=
  if signal_static_assert env T then
    let key := typeid T
    let m := d.m_listeners.subscript key
    some ⟨m.store key (m.at key ++ [ptr])⟩
  else none

/-- The `typedef function_param_at<function_type_for_t<E>, 0> T` of `dispatcher::remove`. -/
def dispatcher.remove.T (env : Env) (E : CType) : Option CType :=
  match function_type_for_t env E with
  | none => none
  | some F => function_param_at F 0

/-- `dispatcher::remove<E>(const E& dispatchListener)`; `none` when the instantiation is
ill-formed (no first parameter, or `listener<T>` fails its `static_assert`). -/
def dispatcher.remove {V X : Type} (env : Env) (d : dispatcher V X)
    (dispatchListener : Callable V X) : Option (dispatcher V X) :=
  match dispatcher.remove.T env dispatchListener.ty with
  | none => none
  | some T =>
    if signal_static_assert env T then
      let addr := pointer_memory.address_for dispatchListener
      let key := typeid T
      let m := d.m_listeners.subscript key
      let v := m.at key
      let result := find_if (fun check => check.eq_addr addr) v
      if result ≠ v.length then some ⟨m.store key (erase v result)⟩ else some ⟨m⟩
    else none

/-- The `typedef function_param_at<T, 0> E` of `dispatcher::wrap_add`. -/
def dispatcher.wrap_add.E (T : CType) : Option CType :=
  function_param_at T 0

/-- `dispatcher::wrap_add<T>(const T& dispatchListener, std::uintptr_t addr)`: builds
`listener<E>(dispatchListener, addr)`, whose member `std::function<void(E)>` is constructed
from the callable, and adds it; `none` when `E` does not resolve, the member cannot be
constructed or `listener<E>` fails its `static_assert`. -/
def dispatcher.wrap_add {V X : Type} (env : Env) (d : dispatcher V X) (T : CType)
    (dispatchListener : V → Except X Unit) (addr : Nat) : Option (dispatcher V X) :=
  match dispatcher.wrap_add.E T with
  | none => none
  | some E =>
    if std_function_accepts env T E then d.add env E ⟨dispatchListener, addr⟩ else none

/-- `dispatcher::operator+=`: the callable goes through `function_wrapper<T>::wrap`, whose
result forwards every call to it, and the address is taken from the callable presented;
`none` when `wrap` or `wrap_add` is ill-formed. -/
def dispatcher.operator_plus_eq {V X : Type} (env : Env) (d : dispatcher V X)
    (dispatchListener : Callable V X) : Option (dispatcher V X) :=
  match function_wrapper.wrap_type env dispatchListener.ty with
  | none => none
  | some W =>
    d.wrap_add env W dispatchListener.call (pointer_memory.address_for dispatchListener)

/-- `dispatcher::operator-=`. -/
def dispatcher.operator_minus_eq {V X : Type} (env : Env) (d : dispatcher V X)
    (dispatchListener : Callable V X) : Option (dispatcher V X) :=
  d.remove env dispatchListener

/-- The loop of `dispatch`: calls the listeners front to back with `value` and records each
call; a failure leaves the loop at once. -/
def invoke_each {V X : Type} (value : V) :
    List (listener V X) → List (listener V X × V) × Except X Unit
  | [] => ([], .ok ())
  | f :: rest =>
    match f.call value with
    | .error x => ([(f, value)], .error x)
    | .ok _ => ((f, value) :: (invoke_each value rest).1, (invoke_each value rest).2)

/-- What one call of `dispatch` leaves behind. -/
structure Outcome (V X : Type) where
  /-- The dispatcher after the call. -/
  state : dispatcher V X
  /-- The listener invocations made, in order, each with the value passed. -/
  trace : List (listener V X × V)
  /-- Normal return, or the failure that left the call. -/
  result : Except X Unit

/-- `dispatcher::dispatch<T>(T value)`; `none` when the `static_assert` rejects `T`. The
`static_pointer_cast` to `listener<T>` is taken to give back the listener that was stored
under the key, and a listener does not reach the dispatcher it is called from. -/
def dispatcher.dispatch {V X : Type} (env : Env) (d : dispatcher V X) (T : CType)
    (value : V) : Option (Outcome V X) :=
  if signal_static_assert env T then
    let key := typeid T
    let m := d.m_listeners.subscript key
    let r := invoke_each value (m.at key)
    some ⟨⟨m⟩, r.1, r.2⟩
  else none

/-- The statements `d.add<T>(S1); ...; d.add<T>(SN);` in sequence. -/
def dispatcher.add_all {V X : Type} (env : Env) (T : CType) :
    dispatcher V X → List (listener V X) → Option (dispatcher V X)
  | d, [] => some d
  | d, s :: rest =>
    match d.add env T s with
    | none => none
    | some d1 => dispatcher.add_all env T d1 rest

/-- The statements `d += C1; ...; d += CN;` in sequence. -/
def dispatcher.subscribe_all {V X : Type} (env : Env) :
    dispatcher V X → List (Callable V X) → Option (dispatcher V X)
  | d, [] => some d
  | d, c :: rest =>
    match d.operator_plus_eq env c with
    | none => none
    | some d1 => dispatcher.subscribe_all env d1 rest

/-- The listener that `operator+=` builds for a callable: the callable behind the wrapper,
with the address taken from the callable presented. -/
def listener.of_callable {V X : Type} (c : Callable V X) : listener V X :=
  ⟨c.call, pointer_memory.address_for c⟩

/-! ## Concrete programs

The event classes `OrderPlaced` and `OrderCancelled` derive from `signal`; template `1` is the
class template of the results of `std::bind`. Event values and failures are numbers. -/

/-- The event class `OrderPlaced`. -/
def OrderPlaced : CType := .cls 1

/-- The event class `OrderCancelled`. -/
def OrderCancelled : CType := .cls 2

/-- The type `void(*)(const OrderPlaced&)`. -/
def fp_OrderPlaced : CType :=
  .ptr (.fn .void_ (.cons (.lref (.const_ OrderPlaced)) .nil))

/-- A closure type whose call operator is `void operator()(const OrderPlaced&) const`. -/
def closure_OrderPlaced : CType :=
  .functor 5 (.memfn (.cls 5) .void_ (.cons (.lref (.const_ OrderPlaced)) .nil) true)

/-- The type of `std::bind(&Receiver::on_order, &receiver, _1)`, with
`void Receiver::on_order(const OrderPlaced&)`. -/
def bind_OrderPlaced : CType :=
  .tmpl 1 (.cons (.memfn (.cls 9) .void_ (.cons (.lref (.const_ OrderPlaced)) .nil) false)
    (.cons (.ptr (.cls 9)) (.cons (.lref (.const_ (.cls 3))) .nil)))

/-- The type `std::function<void(const OrderPlaced&)>`. -/
def std_function_OrderPlaced : CType :=
  .tmpl std_function (.cons (.fn .void_ (.cons (.lref (.const_ OrderPlaced)) .nil)) .nil)

/-- The type `void(*)(const OrderPlaced&, Count)`, with `Count` the class `4`. -/
def fp_two_parameters : CType :=
  .ptr (.fn .void_ (.cons (.lref (.const_ OrderPlaced)) (.cons (.cls 4) .nil)))

/-- The type of `std::bind(&on_order_n, _1, n)`, with
`void on_order_n(const OrderPlaced&, Count)`. -/
def bind_two_parameters : CType :=
  .tmpl 1 (.cons fp_two_parameters (.cons (.lref (.const_ (.cls 3))) (.cons (.cls 4) .nil)))

/-- The environment of the concrete programs: two event classes, one bind template, and the
two library facts for exactly the types these programs construct and call. A
`std::function<void(const OrderPlaced&)>` can be built from the one-parameter function
pointer, from the closure and from a copy of itself; the two bind objects can be called with a
`const OrderPlaced&`. -/
def env0 : Env where
  is_bind_expression := fun t =>
    match t with
    | .tmpl 1 _ => true
    | _ => false
  is_base_of_signal := fun t =>
    match remove_cv t with
    | .cls 1 => true
    | .cls 2 => true
    | _ => false
  std_function_constructible := fun E W =>
    decide (E = .lref (.const_ OrderPlaced)) &&
      (decide (W = fp_OrderPlaced) || decide (W = closure_OrderPlaced) ||
        decide (W = std_function_OrderPlaced))
  is_invocable := fun T A =>
    decide (A = .lref (.const_ OrderPlaced)) &&
      (decide (T = bind_OrderPlaced) || decide (T = bind_two_parameters))

/-- A listener with address `a` that returns normally on every event. -/
def L_ok (a : Nat) : listener Nat Nat := ⟨fun _ => .ok (), a⟩

/-- A listener with address `a` that raises the failure `x` on every event. -/
def L_fail (a x : Nat) : listener Nat Nat := ⟨fun _ => .error x, a⟩

/-- A pointer variable at address `var` holding the address `target` of a free function
`void f(const OrderPlaced&)` that returns normally. -/
def fn_pointer (var target : Nat) : Callable Nat Nat :=
  ⟨fp_OrderPlaced, var, target, [], fun _ => .ok ()⟩

/-- A closure object stored at address `a`, with the given captures, that returns normally. -/
def closure_at (a : Nat) (captures : List Nat) : Callable Nat Nat :=
  ⟨closure_OrderPlaced, a, 0, captures, fun _ => .ok ()⟩

/-- A bind object stored at address `a` that binds the member function at address `handler`
to the receiver at address `receiver`. -/
def binding_at (a handler receiver : Nat) : Callable Nat Nat :=
  ⟨bind_OrderPlaced, a, 0, [handler, receiver], fun _ => .ok ()⟩

/-- A dispatcher whose bucket for `OrderPlaced` holds the listeners given. -/
def d_with (v : List (listener Nat Nat)) : dispatcher Nat Nat :=
  ⟨Registry.store (fun _ => none) OrderPlaced v⟩

mutual
/-- Whether a type, viewed as a tree of template arguments, holds a function pointer or a
member function pointer somewhere, as the specification words the search. -/
def contains_function_pointer : CType → Bool
  | .tmpl _ ts => contains_function_pointer_pack ts
  | .tmplB _ _ ts => contains_function_pointer_pack ts
  | t => is_function_pointer t
/-- Whether some type of a pack holds a function pointer or member function pointer. -/
def contains_function_pointer_pack : CTypes → Bool
  | .nil => false
  | .cons t ts => contains_function_pointer t || contains_function_pointer_pack ts
end

/-- The type `void(*)()`. -/
def fp_no_parameter : CType :=
  .ptr (.fn .void_ .nil)

/-- The member function pointer type `void (Receiver::*)(const OrderPlaced&)`. -/
def memfn_OrderPlaced : CType :=
  .memfn (.cls 9) .void_ (.cons (.lref (.const_ OrderPlaced)) .nil) false

/-- A bind expression type whose first argument is a class template instantiation
`Box<Receiver>` and whose second is the member function pointer. -/
def bind_box_first : CType :=
  .tmpl 1 (.cons (.tmpl 7 (.cons (.cls 9) .nil)) (.cons memfn_OrderPlaced .nil))

/-- The same bind expression type with the plain pointer `Receiver*` in place of the
`Box<Receiver>`. -/
def bind_pointer_first : CType :=
  .tmpl 1 (.cons (.ptr (.cls 9)) (.cons memfn_OrderPlaced .nil))

/-- A callable of type `ty` stored at address `a`, with pointee address `target`, that
returns normally. -/
def callable_at (ty : CType) (a target : Nat) : Callable Nat Nat :=
  ⟨ty, a, target, [], fun _ => .ok ()⟩

/-- Identity of a bind expression as the specification words it: the address of the inner
function reference that unwrapping the binding finds. -/
def spec_binding_identity {V X : Type} (c : Callable V X) : Option Nat :=
  c.contents.head?

/-! ## Auxiliary facts about the embedding -/

section lists

variable {α : Type}

theorem find_if_le (pred : α → Bool) (v : List α) : find_if pred v ≤ v.length := by
  induction v with
  | nil => simp [find_if]
  | cons x xs ih =>
    by_cases h : pred x = true
    · simp [find_if, h]
    · simp [find_if, h, ih]

theorem find_if_eq_length_iff (pred : α → Bool) (v : List α) :
    find_if pred v = v.length ↔ ∀ x ∈ v, pred x = false := by
  induction v with
  | nil => simp [find_if]
  | cons x xs ih =>
    by_cases h : pred x = true
    · simp [find_if, h]
    · simp [find_if, h, ih]

theorem find_if_split (pred : α → Bool) (v : List α) (h : ∃ x ∈ v, pred x = true) :
    ∃ pre x post, v = pre ++ x :: post ∧ pred x = true ∧ (∀ y ∈ pre, pred y = false) ∧
      find_if pred v = pre.length ∧ erase v (find_if pred v) = pre ++ post := by
  induction v with
  | nil => simp at h
  | cons a as ih =>
    by_cases ha : pred a = true
    · exact ⟨[], a, as, by simp, ha, by simp, by simp [find_if, ha], by simp [find_if, ha, erase]⟩
    · have h1 : ∃ x ∈ as, pred x = true := by
        obtain ⟨x, hx, hp⟩ := h
        rcases List.mem_cons.mp hx with rfl | hx
        · exact absurd hp ha
        · exact ⟨x, hx, hp⟩
      obtain ⟨pre, x, post, hv, hx, hpre, hidx, her⟩ := ih h1
      refine ⟨a :: pre, x, post, by simp [hv], hx, ?_, by simp [find_if, ha, hidx], ?_⟩
      · intro y hy
        rcases List.mem_cons.mp hy with rfl | hy
        · simpa using ha
        · exact hpre y hy
      · simp [find_if, ha, erase, her]

theorem find_if_append_last (pred : α → Bool) (pre : List α) (x : α)
    (hpre : ∀ y ∈ pre, pred y = false) (hx : pred x = true) :
    find_if pred (pre ++ [x]) = pre.length ∧ erase (pre ++ [x]) pre.length = pre := by
  induction pre with
  | nil => simp [find_if, hx, erase]
  | cons a as ih =>
    have ha : pred a = false := hpre a (by simp)
    have ih1 := ih (fun y hy => hpre y (by simp [hy]))
    simp [find_if, ha, erase, ih1.1, ih1.2]

theorem erase_append_right (v : List α) (x : α) (i : Nat) (hi : i < v.length) :
    erase (v ++ [x]) i = erase v i ++ [x] := by
  induction v generalizing i with
  | nil => simp at hi
  | cons a as ih =>
    cases i with
    | zero => simp [erase]
    | succ j =>
      have hj : j < as.length := by simpa using hi
      simp [erase, ih j hj]

theorem find_if_append_right (pred : α → Bool) (v : List α) (x : α) (hx : pred x = false) :
    (find_if pred (v ++ [x]) = (v ++ [x]).length ↔ find_if pred v = v.length) ∧
      (find_if pred v ≠ v.length → find_if pred (v ++ [x]) = find_if pred v) := by
  induction v with
  | nil => simp [find_if, hx]
  | cons a as ih =>
    by_cases ha : pred a = true
    · simp [find_if, ha]
    · simp only [Bool.not_eq_true] at ha
      simp only [List.cons_append, find_if, ha, Bool.false_eq_true, if_false, List.length_cons,
        Nat.add_right_cancel_iff]
      exact ⟨ih.1, fun h => by simpa using ih.2 (by simpa using h)⟩

end lists

section registry

variable {V X : Type}

theorem Registry.subscript_at (m : Registry V X) (key k : CType) :
    (m.subscript key).at k = m.at k := by
  unfold Registry.subscript Registry.at
  cases h : m key with
  | some v => simp
  | none =>
    by_cases hk : k = key
    · subst hk; simp [h]
    · simp [hk]

theorem Registry.subscript_apply_ne (m : Registry V X) (key k : CType) (hk : k ≠ key) :
    (m.subscript key) k = m k := by
  unfold Registry.subscript
  cases h : m key with
  | some v => simp
  | none => simp [hk]

theorem Registry.subscript_of_some (m : Registry V X) (key : CType) (v : List (listener V X))
    (h : m key = some v) : m.subscript key = m := by
  unfold Registry.subscript
  simp [h]

theorem Registry.subscript_apply_same (m : Registry V X) (key : CType) :
    (m.subscript key) key = some (m.at key) := by
  unfold Registry.subscript Registry.at
  cases h : m key with
  | some v => simp [h]
  | none => simp

theorem Registry.store_at_same (m : Registry V X) (key : CType) (v : List (listener V X)) :
    (m.store key v).at key = v := by
  simp [Registry.store, Registry.at]

theorem Registry.store_at_ne (m : Registry V X) (key k : CType) (v : List (listener V X))
    (hk : k ≠ key) : (m.store key v).at k = m.at k := by
  simp [Registry.store, Registry.at, hk]

theorem Registry.store_apply_ne (m : Registry V X) (key k : CType) (v : List (listener V X))
    (hk : k ≠ key) : (m.store key v) k = m k := by
  simp [Registry.store, hk]

theorem dispatcher.add_some (env : Env) (d d1 : dispatcher V X) (T : CType) (l : listener V X)
    (h : d.add env T l = some d1) :
    signal_static_assert env T = true ∧
      d1.bucket (typeid T) = d.bucket (typeid T) ++ [l] ∧
      ∀ k, k ≠ typeid T → d1.m_listeners k = d.m_listeners k := by
  unfold dispatcher.add at h
  by_cases hs : signal_static_assert env T = true
  · simp only [hs, if_true, Option.some.injEq] at h
    subst h
    refine ⟨hs, ?_, ?_⟩
    · simp [dispatcher.bucket, Registry.store_at_same, Registry.subscript_at]
    · intro k hk
      simp [Registry.store_apply_ne _ _ _ _ hk, Registry.subscript_apply_ne _ _ _ hk]
  · simp [hs] at h

theorem dispatcher.bucket_of_apply (d d1 : dispatcher V X) (k : CType)
    (h : d1.m_listeners k = d.m_listeners k) : d1.bucket k = d.bucket k := by
  simp [dispatcher.bucket, Registry.at, h]

end registry

section loop

variable {V X : Type}

theorem invoke_each_trace_prefix (value : V) (v : List (listener V X)) :
    (invoke_each value v).1 <+: v.map (fun f => (f, value)) := by
  induction v with
  | nil => simp [invoke_each]
  | cons f rest ih =>
    unfold invoke_each
    cases hf : f.call value with
    | error x => simp [List.prefix_cons_inj]
    | ok u => simpa [List.prefix_cons_inj] using ih

theorem invoke_each_ok_iff (value : V) (v : List (listener V X)) :
    (invoke_each value v).2 = .ok () ↔ ∀ f ∈ v, f.call value = .ok () := by
  induction v with
  | nil => simp [invoke_each]
  | cons f rest ih =>
    unfold invoke_each
    cases hf : f.call value with
    | error x => simp [hf]
    | ok u => simpa [hf] using ih

theorem invoke_each_ok_trace (value : V) (v : List (listener V X))
    (h : (invoke_each value v).2 = .ok ()) :
    (invoke_each value v).1 = v.map (fun f => (f, value)) := by
  induction v with
  | nil => simp [invoke_each]
  | cons f rest ih =>
    unfold invoke_each at h ⊢
    cases hf : f.call value with
    | error x => simp [hf] at h
    | ok u =>
      simp only [hf] at h ⊢
      simp [ih h]

theorem invoke_each_fail (value : V) (pre post : List (listener V X)) (f : listener V X) (x : X)
    (hpre : ∀ g ∈ pre, g.call value = .ok ()) (hf : f.call value = .error x) :
    invoke_each value (pre ++ f :: post) =
      ((pre ++ [f]).map (fun g => (g, value)), .error x) := by
  induction pre with
  | nil => simp [invoke_each, hf]
  | cons g gs ih =>
    have hg : g.call value = .ok () := hpre g (by simp)
    have ih1 := ih (fun k hk => hpre k (by simp [hk]))
    simp [invoke_each, hg, ih1]

end loop

section types

theorem typeid_add_const_lref (E : CType) : typeid (add_const_lref E) = typeid E := by
  cases E <;> simp [add_const_lref, typeid, remove_reference, remove_cv, is_const, is_function]
  case volatile_ t =>
    by_cases h : is_const t = true <;> simp [h, remove_reference, remove_cv]

theorem decay_add_const_lref (E : CType) : decay (add_const_lref E) = decay E := by
  cases E <;> simp [add_const_lref, decay, remove_reference, remove_cv, is_const, is_function]
  case volatile_ t =>
    by_cases h : is_const t = true <;> simp [h, remove_reference, remove_cv]

theorem full_decay_t_add_const_lref (E : CType) :
    full_decay_t (add_const_lref E) = full_decay_t E := by
  simp [full_decay_t, decay_add_const_lref]

theorem function_in_binding_of_func_traits (T : CType) (p : CType × CTypes)
    (h : func_traits T = some p) : ∃ F, function_in_binding T = some F := by
  cases T with
  | tmpl n ts =>
    cases ts with
    | nil => simp [func_traits] at h
    | cons t rest =>
      cases rest with
      | nil =>
        cases t <;> simp [func_traits] at h
        case fn r a => simp [function_in_binding, function_in_binding_pack]
      | cons u us => simp [func_traits] at h
  | tmplB n b ts => simp [func_traits] at h
  | _ => simp [function_in_binding]

theorem function_param_at_std_function (E : CType) :
    function_param_at (.tmpl std_function (.cons (.fn .void_ (.cons E .nil)) .nil)) 0 = some E := by
  simp [function_param_at, func_traits, func_trait_helper.arg, CTypes.length, CTypes.get?]

/-- The event type that `operator+=` resolves and the one that `remove` resolves have the same
type key and the same full decay. -/
theorem resolve_agree (env : Env) (ty W E : CType)
    (hW : function_wrapper.wrap_type env ty = some W) (hE : dispatcher.wrap_add.E W = some E) :
    ∃ T, dispatcher.remove.T env ty = some T ∧ typeid T = typeid E ∧
      full_decay_t T = full_decay_t E := by
  unfold function_wrapper.wrap_type at hW
  by_cases hb : env.is_bind_expression ty = true
  · simp only [hb, if_true] at hW
    cases hE0 : function_wrapper.E ty with
    | none => simp [hE0] at hW
    | some E0 =>
      simp only [hE0] at hW
      by_cases hinv : env.is_invocable ty (add_const_lref E0) = true
      swap
      · simp [hinv] at hW
      simp only [hinv, if_true, Option.some.injEq] at hW
      subst hW
      unfold dispatcher.wrap_add.E at hE
      rw [function_param_at_std_function] at hE
      simp only [Option.some.injEq] at hE
      subst hE
      unfold function_wrapper.E at hE0
      cases hF : function_in_binding ty with
      | none => simp [hF] at hE0
      | some F =>
        simp only [hF] at hE0
        refine ⟨E0, ?_, (typeid_add_const_lref E0).symm, (full_decay_t_add_const_lref E0).symm⟩
        simp [dispatcher.remove.T, function_type_for_t, hF, hb, hE0]
  · simp only [hb, Bool.false_eq_true, if_false, Option.some.injEq] at hW
    subst hW
    unfold dispatcher.wrap_add.E at hE
    have hft : ∃ p, func_traits ty = some p := by
      unfold function_param_at at hE
      cases hp : func_traits ty with
      | none => simp [hp] at hE
      | some p => exact ⟨p, rfl⟩
    obtain ⟨p, hp⟩ := hft
    obtain ⟨F, hF⟩ := function_in_binding_of_func_traits ty p hp
    exact ⟨E, by simp [dispatcher.remove.T, function_type_for_t, hF, hb, hE], rfl, rfl⟩

end types

section canonical

variable {V X : Type}

theorem erase_length {α : Type} (v : List α) : erase v v.length = v := by
  induction v with
  | nil => simp [erase]
  | cons a as ih => simp [erase, ih]

theorem Registry.subscript_eq_store (m : Registry V X) (key : CType) :
    m.subscript key = m.store key (m.at key) := by
  funext k
  by_cases hk : k = key
  · subst hk
    simp [Registry.subscript_apply_same, Registry.store]
  · simp [Registry.subscript_apply_ne _ _ _ hk, Registry.store, hk]

theorem Registry.store_store (m : Registry V X) (key : CType) (v w : List (listener V X)) :
    (m.store key v).store key w = m.store key w := by
  funext k
  by_cases hk : k = key <;> simp [Registry.store, hk]

theorem dispatcher.add_eq (env : Env) (d : dispatcher V X) (T : CType) (l : listener V X)
    (hs : signal_static_assert env T = true) :
    d.add env T l = some ⟨d.m_listeners.store (typeid T) (d.bucket (typeid T) ++ [l])⟩ := by
  unfold dispatcher.add
  simp only [hs, if_true, Registry.subscript_at, dispatcher.bucket]
  rw [Registry.subscript_eq_store, Registry.store_store]

theorem dispatcher.remove_eq (env : Env) (d : dispatcher V X) (c : Callable V X) (T : CType)
    (hT : dispatcher.remove.T env c.ty = some T) (hs : signal_static_assert env T = true) :
    d.remove env c = some ⟨d.m_listeners.store (typeid T)
      (erase (d.bucket (typeid T))
        (find_if (fun check => check.eq_addr (pointer_memory.address_for c))
          (d.bucket (typeid T))))⟩ := by
  unfold dispatcher.remove
  simp only [hT, hs, if_true, Registry.subscript_at, dispatcher.bucket]
  split
  · rw [Registry.subscript_eq_store, Registry.store_store]
  · rename_i h
    simp only [ne_eq, not_not] at h
    rw [h, erase_length, Registry.subscript_eq_store]

theorem dispatcher.remove_some (env : Env) (d d1 : dispatcher V X) (c : Callable V X)
    (h : d.remove env c = some d1) :
    ∃ T, dispatcher.remove.T env c.ty = some T ∧ signal_static_assert env T = true := by
  unfold dispatcher.remove at h
  cases hT : dispatcher.remove.T env c.ty with
  | none => simp [hT] at h
  | some T =>
    by_cases hs : signal_static_assert env T = true
    · exact ⟨T, rfl, hs⟩
    · simp [hT, hs] at h

theorem dispatcher.operator_plus_eq_some (env : Env) (d d1 : dispatcher V X) (c : Callable V X)
    (h : d.operator_plus_eq env c = some d1) :
    ∃ W E, function_wrapper.wrap_type env c.ty = some W ∧ dispatcher.wrap_add.E W = some E ∧
      signal_static_assert env E = true ∧
      d1 = ⟨d.m_listeners.store (typeid E)
        (d.bucket (typeid E) ++ [⟨c.call, pointer_memory.address_for c⟩])⟩ ∧
      std_function_accepts env W E = true := by
  unfold dispatcher.operator_plus_eq at h
  cases hW : function_wrapper.wrap_type env c.ty with
  | none => simp [hW] at h
  | some W =>
    simp only [hW, dispatcher.wrap_add] at h
    cases hE : dispatcher.wrap_add.E W with
    | none => simp [hE] at h
    | some E =>
      simp only [hE] at h
      by_cases hacc : std_function_accepts env W E = true
      · simp only [hacc, if_true] at h
        by_cases hs : signal_static_assert env E = true
        · rw [dispatcher.add_eq env d E _ hs] at h
          exact ⟨W, E, rfl, hE, hs, (Option.some.inj h).symm, hacc⟩
        · simp [dispatcher.add, hs] at h
      · simp [hacc] at h

theorem dispatcher.dispatch_eq (env : Env) (d : dispatcher V X) (T : CType) (value : V)
    (hs : signal_static_assert env T = true) :
    d.dispatch env T value =
      some ⟨⟨d.m_listeners.store (typeid T) (d.bucket (typeid T))⟩,
        (invoke_each value (d.bucket (typeid T))).1,
        (invoke_each value (d.bucket (typeid T))).2⟩ := by
  unfold dispatcher.dispatch
  simp only [hs, if_true, Registry.subscript_at, dispatcher.bucket]
  rw [Registry.subscript_eq_store]

theorem dispatcher.bucket_store_same (m : Registry V X) (key : CType)
    (v : List (listener V X)) : (dispatcher.mk (m.store key v)).bucket key = v := by
  simp [dispatcher.bucket, Registry.store_at_same]

theorem dispatcher.bucket_store_ne (m : Registry V X) (key k : CType)
    (v : List (listener V X)) (hk : k ≠ key) :
    (dispatcher.mk (m.store key v)).bucket k = (dispatcher.mk m).bucket k := by
  simp [dispatcher.bucket, Registry.store_at_ne _ _ _ _ hk]

theorem dispatcher.add_all_eq (env : Env) (T : CType) (hs : signal_static_assert env T = true)
    (S : List (listener V X)) (d : dispatcher V X) :
    ∃ dN, dispatcher.add_all env T d S = some dN ∧
      dN.bucket (typeid T) = d.bucket (typeid T) ++ S := by
  induction S generalizing d with
  | nil => exact ⟨d, by simp [dispatcher.add_all], by simp⟩
  | cons s rest ih =>
    obtain ⟨dN, h1, h2⟩ := ih ⟨d.m_listeners.store (typeid T) (d.bucket (typeid T) ++ [s])⟩
    refine ⟨dN, ?_, ?_⟩
    · simp [dispatcher.add_all, dispatcher.add_eq env d T s hs, h1]
    · rw [h2, dispatcher.bucket_store_same]
      simp

end canonical

section more

variable {V X : Type}

theorem erase_find_if_append_right {α : Type} (pred : α → Bool) (v : List α) (x : α)
    (hx : pred x = false) :
    erase (v ++ [x]) (find_if pred (v ++ [x])) = erase v (find_if pred v) ++ [x] := by
  by_cases h : find_if pred v = v.length
  · have h1 := (find_if_append_right pred v x hx).1.mpr h
    rw [h1, h, erase_length, erase_length]
  · rw [(find_if_append_right pred v x hx).2 h]
    exact erase_append_right v x _ (lt_of_le_of_ne (find_if_le pred v) h)

theorem invoke_each_reaches (value : V) (pre post : List (listener V X)) (f : listener V X)
    (hpre : ∀ g ∈ pre, g.call value = .ok ()) :
    (pre ++ [f]).map (fun g => (g, value)) <+: (invoke_each value (pre ++ f :: post)).1 := by
  induction pre with
  | nil =>
    cases hf : f.call value with
    | error x => simp [invoke_each, hf]
    | ok u => simp [invoke_each, hf, List.prefix_cons_inj]
  | cons g gs ih =>
    have hg : g.call value = .ok () := hpre g (by simp)
    have ih1 := ih (fun k hk => hpre k (by simp [hk]))
    simpa [invoke_each, hg, List.prefix_cons_inj] using ih1

theorem invoke_each_append_last (value : V) (pre : List (listener V X)) (f : listener V X)
    (hpre : ∀ g ∈ pre, g.call value = .ok ()) :
    (invoke_each value (pre ++ [f])).1 = (invoke_each value pre).1 ++ [(f, value)] := by
  induction pre with
  | nil =>
    cases hf : f.call value with
    | error x => simp [invoke_each, hf]
    | ok u => simp [invoke_each, hf]
  | cons g gs ih =>
    have hg : g.call value = .ok () := hpre g (by simp)
    have ih1 := ih (fun k hk => hpre k (by simp [hk]))
    simp [invoke_each, hg, ih1]

theorem dispatcher.operator_plus_eq_eq (env : Env) (d : dispatcher V X) (c : Callable V X)
    (W E : CType) (hW : function_wrapper.wrap_type env c.ty = some W)
    (hE : dispatcher.wrap_add.E W = some E) (hs : signal_static_assert env E = true)
    (hacc : std_function_accepts env W E = true) :
    d.operator_plus_eq env c = some ⟨d.m_listeners.store (typeid E)
      (d.bucket (typeid E) ++ [⟨c.call, pointer_memory.address_for c⟩])⟩ := by
  unfold dispatcher.operator_plus_eq
  simp only [hW, dispatcher.wrap_add, hE, hacc, if_true]
  exact dispatcher.add_eq env d E _ hs

theorem signal_static_assert_congr (env : Env) (T E : CType)
    (h : full_decay_t T = full_decay_t E) :
    signal_static_assert env T = signal_static_assert env E := by
  simp [signal_static_assert, h]

theorem dispatcher.subscribe_all_eq {V X : Type} (env : Env) (key : CType)
    (cs : List (Callable V X))
    (hcs : ∀ c ∈ cs, ∃ W E, function_wrapper.wrap_type env c.ty = some W ∧
      dispatcher.wrap_add.E W = some E ∧ std_function_accepts env W E = true ∧
      signal_static_assert env E = true ∧ typeid E = key)
    (d : dispatcher V X) :
    ∃ dN, dispatcher.subscribe_all env d cs = some dN ∧
      dN.bucket key = d.bucket key ++ cs.map listener.of_callable := by
  induction cs generalizing d with
  | nil => exact ⟨d, by simp [dispatcher.subscribe_all], by simp⟩
  | cons c rest ih =>
    obtain ⟨W, E, hW, hE, hacc, hs, hk⟩ := hcs c (by simp)
    subst hk
    obtain ⟨dN, h1, h2⟩ := ih (fun c1 h1 => hcs c1 (by simp [h1]))
      ⟨d.m_listeners.store (typeid E)
        (d.bucket (typeid E) ++ [⟨c.call, pointer_memory.address_for c⟩])⟩
    refine ⟨dN, ?_, ?_⟩
    · simp [dispatcher.subscribe_all, dispatcher.operator_plus_eq_eq env d c W E hW hE hs hacc,
        h1]
    · rw [h2, dispatcher.bucket_store_same]
      simp [listener.of_callable]

theorem find_if_first {α : Type} (pred : α → Bool) (pre post : List α) (x : α)
    (hpre : ∀ y ∈ pre, pred y = false) (hx : pred x = true) :
    find_if pred (pre ++ x :: post) = pre.length ∧
      erase (pre ++ x :: post) pre.length = pre ++ post := by
  induction pre with
  | nil => simp [find_if, hx, erase]
  | cons a as ih =>
    have ha : pred a = false := hpre a (by simp)
    have ih1 := ih (fun y hy => hpre y (by simp [hy]))
    simp [find_if, ha, erase, ih1.1, ih1.2]

theorem CTypes.get?_zero_of_length (args : CTypes) (h : 1 ≤ args.length) :
    ∃ E, args.get? 0 = some E := by
  cases args with
  | nil => simp [CTypes.length] at h
  | cons t ts => exact ⟨t, rfl⟩

theorem function_type_for_t_some (env : Env) (T F : CType)
    (h : function_type_for_t env T = some F) :
    ∃ F0, function_in_binding T = some F0 ∧ F = if env.is_bind_expression T then F0 else T := by
  unfold function_type_for_t at h
  cases h0 : function_in_binding T with
  | none => simp [h0] at h
  | some F0 =>
    simp only [h0, Option.some.injEq] at h
    exact ⟨F0, rfl, h.symm⟩

theorem countP_addr_eq_zero {V X : Type} (v : List (listener V X)) (a : Nat)
    (h : ∀ l ∈ v, l.m_addr ≠ a) : v.countP (fun l => l.m_addr == a) = 0 := by
  rw [List.countP_eq_zero]
  intro l hl
  simpa using h l hl

theorem countP_trace {V X : Type} (v : List (listener V X)) (a : Nat) (e : V) :
    (v.map (fun f => (f, e))).countP (fun p => p.1.m_addr == a) =
      v.countP (fun l => l.m_addr == a) := by
  induction v with
  | nil => simp
  | cons x xs ih => simp [List.countP_cons, ih]

end more

section examples

theorem typeid_param_OrderPlaced : typeid (.lref (.const_ OrderPlaced)) = OrderPlaced := rfl

theorem d_with_subscribe (v : List (listener Nat Nat)) (c : Callable Nat Nat) (W : CType)
    (hW : function_wrapper.wrap_type env0 c.ty = some W)
    (hE : dispatcher.wrap_add.E W = some (.lref (.const_ OrderPlaced)))
    (hacc : std_function_accepts env0 W (.lref (.const_ OrderPlaced)) = true) :
    (d_with v).operator_plus_eq env0 c =
      some (d_with (v ++ [⟨c.call, pointer_memory.address_for c⟩])) := by
  rw [dispatcher.operator_plus_eq_eq env0 _ c W _ hW hE rfl hacc, typeid_param_OrderPlaced]
  simp only [d_with, dispatcher.bucket_store_same, Registry.store_store]

theorem empty_subscribe (c : Callable Nat Nat) (W : CType)
    (hW : function_wrapper.wrap_type env0 c.ty = some W)
    (hE : dispatcher.wrap_add.E W = some (.lref (.const_ OrderPlaced)))
    (hacc : std_function_accepts env0 W (.lref (.const_ OrderPlaced)) = true) :
    (dispatcher.empty : dispatcher Nat Nat).operator_plus_eq env0 c =
      some (d_with [⟨c.call, pointer_memory.address_for c⟩]) := by
  rw [dispatcher.operator_plus_eq_eq env0 _ c W _ hW hE rfl hacc, typeid_param_OrderPlaced]
  rfl

theorem d_with_unsubscribe (v : List (listener Nat Nat)) (c : Callable Nat Nat)
    (hT : dispatcher.remove.T env0 c.ty = some (.lref (.const_ OrderPlaced))) :
    (d_with v).operator_minus_eq env0 c =
      some (d_with (erase v
        (find_if (fun check => check.eq_addr (pointer_memory.address_for c)) v))) := by
  unfold dispatcher.operator_minus_eq
  rw [dispatcher.remove_eq env0 _ c _ hT rfl, typeid_param_OrderPlaced]
  simp only [d_with, dispatcher.bucket_store_same, Registry.store_store]

theorem d_with_bucket (v : List (listener Nat Nat)) : (d_with v).bucket OrderPlaced = v := by
  simp [d_with, dispatcher.bucket_store_same]

theorem d_with_dispatch (v : List (listener Nat Nat)) (e : Nat) :
    (d_with v).dispatch env0 OrderPlaced e =
      some ⟨d_with v, (invoke_each e v).1, (invoke_each e v).2⟩ := by
  rw [dispatcher.dispatch_eq env0 (d_with v) OrderPlaced e rfl]
  have hkey : typeid OrderPlaced = OrderPlaced := rfl
  rw [hkey, d_with_bucket]
  simp only [d_with, Registry.store_store]

end examples

/-! ## The claims -/

section claims

variable {V X : Type}

/-- C1: a publish of an event of declared type `T` walks the bucket for `TypeKey(T)` and no
other: its invocation trace is an initial segment of the bucket, oldest first, every entry
paired with the one event value; the call returns normally exactly when no listener of the
bucket fails, and then the trace is the whole bucket, each listener once. In particular,
after `S1..SN` (any `N`) are registered for `T` on an empty dispatcher, by `add<T>` or as the
listeners of callables given to `operator+=`, the bucket is `S1..SN` and a publish of `e`
that returns normally has the trace `[(S1,e), ..., (SN,e)]`. -/
theorem C1_dispatch_invokes_bucket_fifo (env : Env) (d : dispatcher V X) (T : CType) (e : V)
    (hT : signal_static_assert env T = true) :
    ∃ out, d.dispatch env T e = some out ∧
      out.trace <+: (d.bucket (typeid T)).map (fun f => (f, e)) ∧
      (out.result = .ok () ↔ ∀ f ∈ d.bucket (typeid T), f.call e = .ok ()) ∧
      (out.result = .ok () → out.trace = (d.bucket (typeid T)).map (fun f => (f, e))) ∧
      (∀ S : List (listener V X), ∃ dN, dispatcher.add_all env T dispatcher.empty S = some dN ∧
        dN.bucket (typeid T) = S ∧
        ∃ outN, dN.dispatch env T e = some outN ∧
          (outN.result = .ok () → outN.trace = S.map (fun f => (f, e)))) ∧
      ∀ cs : List (Callable V X),
        (∀ c ∈ cs, ∃ W E, function_wrapper.wrap_type env c.ty = some W ∧
          dispatcher.wrap_add.E W = some E ∧ std_function_accepts env W E = true ∧
          signal_static_assert env E = true ∧ typeid E = typeid T) →
        ∃ dN, dispatcher.subscribe_all env dispatcher.empty cs = some dN ∧
          dN.bucket (typeid T) = cs.map listener.of_callable ∧
          ∃ outN, dN.dispatch env T e = some outN ∧
            (outN.result = .ok () →
              outN.trace = cs.map (fun c => (listener.of_callable c, e))) := by
  refine ⟨_, dispatcher.dispatch_eq env d T e hT, invoke_each_trace_prefix e _,
    invoke_each_ok_iff e _, invoke_each_ok_trace e _, ?_, ?_⟩
  · intro S
    obtain ⟨dN, h1, h2⟩ := dispatcher.add_all_eq env T hT S (dispatcher.empty : dispatcher V X)
    have h3 : dN.bucket (typeid T) = S := by
      simpa [dispatcher.bucket, dispatcher.empty, Registry.at] using h2
    refine ⟨dN, h1, h3, _, dispatcher.dispatch_eq env dN T e hT, ?_⟩
    intro hr
    simpa [h3] using invoke_each_ok_trace e (dN.bucket (typeid T)) (by simpa using hr)
  · intro cs hcs
    obtain ⟨dN, h1, h2⟩ :=
      dispatcher.subscribe_all_eq env (typeid T) cs hcs (dispatcher.empty : dispatcher V X)
    have h3 : dN.bucket (typeid T) = cs.map listener.of_callable := by
      simpa [dispatcher.bucket, dispatcher.empty, Registry.at] using h2
    refine ⟨dN, h1, h3, _, dispatcher.dispatch_eq env dN T e hT, ?_⟩
    intro hr
    simpa [h3] using invoke_each_ok_trace e (dN.bucket (typeid T)) (by simpa using hr)

/-- C1 at the dispatcher with `L1`, `L2` registered for `OrderPlaced` and the event `7`: the
publish returns normally with the trace `[(L1,7), (L2,7)]`. -/
theorem C1_dispatch_invokes_bucket_fifo_witness :
    signal_static_assert env0 OrderPlaced = true ∧
      ∃ out, (d_with [L_ok 1, L_ok 2]).dispatch env0 OrderPlaced 7 = some out ∧
        out.result = .ok () ∧ out.trace = [(L_ok 1, 7), (L_ok 2, 7)] := by
  refine ⟨rfl, ?_⟩
  obtain ⟨out, h1, _, hiff, h3, _, _⟩ :=
    C1_dispatch_invokes_bucket_fifo env0 (d_with [L_ok 1, L_ok 2]) OrderPlaced 7 rfl
  have hb : (d_with [L_ok 1, L_ok 2]).bucket (typeid OrderPlaced) = [L_ok 1, L_ok 2] := rfl
  have hr : out.result = .ok () := by
    rw [hiff, hb]
    intro f hf
    simp only [List.mem_cons, List.mem_singleton, List.not_mem_nil, or_false] at hf
    rcases hf with rfl | rfl <;> rfl
  refine ⟨out, h1, hr, ?_⟩
  rw [h3 hr, hb]
  rfl

/-- C2: when the type keys of `A` and `B` differ (as they do for two different event classes,
whatever inheritance relates them: the key is read from the declared type alone), a listener
registered for `B` is never reached by a publish of an event declared as `A`: registering it
leaves the bucket of `A` as it was, the publish has the same trace and the same result as
without it, and every listener invoked is a member of the bucket keyed by the key of `A`. -/
theorem C2_dispatch_ignores_other_types (env : Env) (d d1 : dispatcher V X) (A B : CType)
    (l : listener V X) (e : V) (hAB : typeid A ≠ typeid B)
    (hadd : d.add env B l = some d1) (hA : signal_static_assert env A = true) :
    d1.bucket (typeid A) = d.bucket (typeid A) ∧
      ∃ out out1, d.dispatch env A e = some out ∧ d1.dispatch env A e = some out1 ∧
        out1.trace = out.trace ∧ out1.result = out.result ∧
        ∀ p ∈ out1.trace, p.1 ∈ d.bucket (typeid A) ∧ p.2 = e := by
  obtain ⟨_, _, hne⟩ := dispatcher.add_some env d d1 B l hadd
  have hb : d1.bucket (typeid A) = d.bucket (typeid A) :=
    dispatcher.bucket_of_apply d d1 _ (hne _ hAB)
  refine ⟨hb, _, _, dispatcher.dispatch_eq env d A e hA, dispatcher.dispatch_eq env d1 A e hA,
    by simp [hb], by simp [hb], ?_⟩
  intro p hp
  have hpre := invoke_each_trace_prefix e (d1.bucket (typeid A))
  have hmem := hpre.subset hp
  rw [hb] at hmem
  obtain ⟨f, hf, rfl⟩ := List.mem_map.mp hmem
  exact ⟨hf, rfl⟩

/-- C2 at `A = OrderCancelled`, `B = OrderPlaced`: after `L1` is registered for `OrderPlaced`
alone, a publish of an `OrderCancelled` event invokes nothing. -/
theorem C2_dispatch_ignores_other_types_witness :
    typeid OrderCancelled ≠ typeid OrderPlaced ∧
      (dispatcher.empty : dispatcher Nat Nat).add env0 OrderPlaced (L_ok 1) =
        some (d_with [L_ok 1]) ∧
      signal_static_assert env0 OrderCancelled = true ∧
      ∃ out1, (d_with [L_ok 1]).dispatch env0 OrderCancelled 7 = some out1 ∧
        out1.trace = [] := by
  have hadd : (dispatcher.empty : dispatcher Nat Nat).add env0 OrderPlaced (L_ok 1) =
      some (d_with [L_ok 1]) := by
    rw [dispatcher.add_eq env0 dispatcher.empty OrderPlaced (L_ok 1) rfl]
    rfl
  refine ⟨by decide, hadd, rfl, ?_⟩
  obtain ⟨_, out, out1, _, h1, _, _, hmem⟩ :=
    C2_dispatch_ignores_other_types env0 dispatcher.empty (d_with [L_ok 1]) OrderCancelled
      OrderPlaced (L_ok 1) 7 (by decide) hadd rfl
  refine ⟨out1, h1, ?_⟩
  cases htr : out1.trace with
  | nil => rfl
  | cons p ps =>
    have := (hmem p (by simp [htr])).1
    simp [dispatcher.bucket, dispatcher.empty, Registry.at] at this

/-- C3: an unsubscribe of a callable with resolved type `T` and identity `i`, in a state where
some listener of the bucket for `TypeKey(T)` has identity `i`, erases the first such listener
in registration order and nothing else: the bucket was `pre ++ x :: post` with `x` the first
listener of identity `i`, it becomes `pre ++ post`, so one listener of identity `i` fewer
remains and the others keep their relative order, and every other bucket is unchanged. -/
theorem C3_remove_erases_first_match (env : Env) (d d1 : dispatcher V X) (c : Callable V X)
    (T : CType) (hT : dispatcher.remove.T env c.ty = some T)
    (hrem : d.operator_minus_eq env c = some d1)
    (hk : ∃ l ∈ d.bucket (typeid T), l.m_addr = pointer_memory.address_for c) :
    ∃ pre x post, d.bucket (typeid T) = pre ++ x :: post ∧
      x.m_addr = pointer_memory.address_for c ∧
      (∀ y ∈ pre, y.m_addr ≠ pointer_memory.address_for c) ∧
      d1.bucket (typeid T) = pre ++ post ∧
      (d1.bucket (typeid T)).countP (fun l => l.m_addr == pointer_memory.address_for c) + 1 =
        (d.bucket (typeid T)).countP (fun l => l.m_addr == pointer_memory.address_for c) ∧
      ∀ k, k ≠ typeid T → d1.m_listeners k = d.m_listeners k := by
  obtain ⟨T1, hT1, hs⟩ := dispatcher.remove_some env d d1 c hrem
  have hTT : T1 = T := Option.some.inj (hT1.symm.trans hT)
  subst hTT
  have hd1 := dispatcher.remove_eq env d c T1 hT hs
  unfold dispatcher.operator_minus_eq at hrem
  rw [hd1] at hrem
  have hd : d1 = _ := (Option.some.inj hrem).symm
  have hex : ∃ l ∈ d.bucket (typeid T1),
      (fun check : listener V X => check.eq_addr (pointer_memory.address_for c)) l = true := by
    obtain ⟨l, hl, ha⟩ := hk
    exact ⟨l, hl, by simp [listener.eq_addr, ha]⟩
  obtain ⟨pre, x, post, hv, hx, hpre, _, her⟩ := find_if_split _ _ hex
  refine ⟨pre, x, post, hv, by simpa [listener.eq_addr] using hx, ?_, ?_, ?_, ?_⟩
  · intro y hy
    simpa [listener.eq_addr] using hpre y hy
  · rw [hd, dispatcher.bucket_store_same, her]
  · rw [hd, dispatcher.bucket_store_same, her, hv]
    have hx1 : (x.m_addr == pointer_memory.address_for c) = true := by
      simpa [listener.eq_addr] using hx
    simp [List.countP_append, List.countP_cons, hx1]
    omega
  · intro k hk1
    rw [hd]
    exact Registry.store_apply_ne _ _ _ _ hk1

/-- C3 at the bucket `[L100, L200, L100]` and the function pointer with target address `100`:
the first listener goes, `[L200, L100]` stays. -/
theorem C3_remove_erases_first_match_witness :
    dispatcher.remove.T env0 (fn_pointer 1000 100).ty = some (.lref (.const_ OrderPlaced)) ∧
      (d_with [L_ok 100, L_ok 200, L_ok 100]).operator_minus_eq env0 (fn_pointer 1000 100) =
        some (d_with [L_ok 200, L_ok 100]) ∧
      (∃ l ∈ (d_with [L_ok 100, L_ok 200, L_ok 100]).bucket OrderPlaced,
        l.m_addr = pointer_memory.address_for (fn_pointer 1000 100)) ∧
      ∃ pre x post, [L_ok 100, L_ok 200, L_ok 100] = pre ++ x :: post ∧
        (d_with [L_ok 200, L_ok 100]).bucket OrderPlaced = pre ++ post := by
  have hT : dispatcher.remove.T env0 (fn_pointer 1000 100).ty =
      some (.lref (.const_ OrderPlaced)) := by decide
  have hrem : (d_with [L_ok 100, L_ok 200, L_ok 100]).operator_minus_eq env0
      (fn_pointer 1000 100) = some (d_with [L_ok 200, L_ok 100]) := by
    have hkey : typeid (.lref (.const_ OrderPlaced)) = OrderPlaced := rfl
    unfold dispatcher.operator_minus_eq
    rw [dispatcher.remove_eq env0 _ _ _ hT rfl, hkey]
    simp only [d_with, dispatcher.bucket_store_same, Registry.store_store]
    rfl
  have hk : ∃ l ∈ (d_with [L_ok 100, L_ok 200, L_ok 100]).bucket OrderPlaced,
      l.m_addr = pointer_memory.address_for (fn_pointer 1000 100) :=
    ⟨L_ok 100, by simp [d_with, dispatcher.bucket, Registry.store_at_same], rfl⟩
  obtain ⟨pre, x, post, h1, _, _, h2, _⟩ :=
    C3_remove_erases_first_match env0 _ _ (fn_pointer 1000 100) _ hT hrem hk
  exact ⟨hT, hrem, hk, pre, x, post, h1, h2⟩

/-- C4, as stated, fails where the bucket is absent: an unsubscribe on the empty dispatcher
returns a dispatcher that is not the empty one, because `m_listeners[key]` has created an
empty bucket under the key of `OrderPlaced`. -/
theorem C4_counterexample :
    (dispatcher.empty : dispatcher Nat Nat).m_listeners OrderPlaced = none ∧
      (dispatcher.empty : dispatcher Nat Nat).operator_minus_eq env0 (fn_pointer 1000 100) =
        some (d_with []) ∧
      (d_with []).m_listeners OrderPlaced = some [] ∧
      d_with [] ≠ (dispatcher.empty : dispatcher Nat Nat) := by
  have hT : dispatcher.remove.T env0 (fn_pointer 1000 100).ty =
      some (.lref (.const_ OrderPlaced)) := by decide
  refine ⟨rfl, ?_, rfl, ?_⟩
  · unfold dispatcher.operator_minus_eq
    rw [dispatcher.remove_eq env0 _ _ _ hT rfl]
    rfl
  · intro h
    have h1 := congrArg (fun d : dispatcher Nat Nat => d.m_listeners OrderPlaced) h
    simp [d_with, dispatcher.empty, Registry.store] at h1

/-- C4, amended: an unsubscribe whose identity matches no listener of the bucket for its event
type returns, removes nothing and leaves the listener sequence of every bucket as it was; the
registry is equal to the one before when that bucket exists, and when it is absent the one
change is that an empty bucket now exists under that key. -/
theorem C4_remove_unmatched_keeps_listeners (env : Env) (d : dispatcher V X) (c : Callable V X)
    (T : CType) (hT : dispatcher.remove.T env c.ty = some T)
    (hs : signal_static_assert env T = true)
    (hno : ∀ l ∈ d.bucket (typeid T), l.m_addr ≠ pointer_memory.address_for c) :
    ∃ d1, d.operator_minus_eq env c = some d1 ∧
      (∀ k, d1.bucket k = d.bucket k) ∧
      (∀ k, k ≠ typeid T → d1.m_listeners k = d.m_listeners k) ∧
      (d.m_listeners (typeid T) ≠ none → d1 = d) ∧
      (d.m_listeners (typeid T) = none → d1.m_listeners (typeid T) = some []) := by
  have hfind : find_if (fun check : listener V X =>
      check.eq_addr (pointer_memory.address_for c)) (d.bucket (typeid T)) =
      (d.bucket (typeid T)).length := by
    rw [find_if_eq_length_iff]
    intro l hl
    simpa [listener.eq_addr] using hno l hl
  have hd1 := dispatcher.remove_eq env d c T hT hs
  rw [hfind, erase_length] at hd1
  refine ⟨_, hd1, ?_, ?_, ?_, ?_⟩
  · intro k
    by_cases hk : k = typeid T
    · subst hk
      exact dispatcher.bucket_store_same _ _ _
    · exact dispatcher.bucket_store_ne _ _ _ _ hk
  · intro k hk
    exact Registry.store_apply_ne _ _ _ _ hk
  · intro hpres
    cases hv : d.m_listeners (typeid T) with
    | none => exact absurd hv hpres
    | some v =>
      have h1 : d.m_listeners.store (typeid T) (d.bucket (typeid T)) = d.m_listeners := by
        show d.m_listeners.store (typeid T) (d.m_listeners.at (typeid T)) = d.m_listeners
        rw [← Registry.subscript_eq_store, Registry.subscript_of_some _ _ v hv]
      cases d
      simpa using h1
  · intro habs
    simp [Registry.store, dispatcher.bucket, Registry.at, habs]

/-- C4 amended, at the empty dispatcher and at a dispatcher whose bucket exists: the first
gains an empty bucket, the second is returned as it was. -/
theorem C4_remove_unmatched_keeps_listeners_witness :
    dispatcher.remove.T env0 (fn_pointer 1000 100).ty = some (.lref (.const_ OrderPlaced)) ∧
      signal_static_assert env0 (.lref (.const_ OrderPlaced)) = true ∧
      (∀ l ∈ (d_with [L_ok 200]).bucket (typeid (.lref (.const_ OrderPlaced))),
        l.m_addr ≠ pointer_memory.address_for (fn_pointer 1000 100)) ∧
      (d_with [L_ok 200]).operator_minus_eq env0 (fn_pointer 1000 100) =
        some (d_with [L_ok 200]) := by
  have hT : dispatcher.remove.T env0 (fn_pointer 1000 100).ty =
      some (.lref (.const_ OrderPlaced)) := by decide
  have hno : ∀ l ∈ (d_with [L_ok 200]).bucket (typeid (.lref (.const_ OrderPlaced))),
      l.m_addr ≠ pointer_memory.address_for (fn_pointer 1000 100) := by
    intro l hl
    have hb : (d_with [L_ok 200]).bucket (typeid (.lref (.const_ OrderPlaced))) =
        [L_ok 200] := rfl
    rw [hb, List.mem_singleton] at hl
    subst hl
    decide
  obtain ⟨d1, h1, _, _, h4, _⟩ :=
    C4_remove_unmatched_keeps_listeners env0 (d_with [L_ok 200]) (fn_pointer 1000 100) _ hT rfl hno
  have hpres : (d_with [L_ok 200]).m_listeners (typeid (.lref (.const_ OrderPlaced))) ≠ none := by
    simp [d_with, Registry.store, typeid, remove_reference, remove_cv, OrderPlaced]
  exact ⟨hT, rfl, hno, by rw [h1, h4 hpres]⟩

/-- C5, as stated, fails for an event type whose bucket is absent: a publish on the empty
dispatcher invokes nothing, but the dispatcher it leaves has a type key the empty one has
not, because `m_listeners[key]` has created an empty bucket. -/
theorem C5_counterexample :
    (dispatcher.empty : dispatcher Nat Nat).m_listeners OrderPlaced = none ∧
      (dispatcher.empty : dispatcher Nat Nat).dispatch env0 OrderPlaced 7 =
        some ⟨d_with [], [], .ok ()⟩ ∧
      (d_with []).m_listeners OrderPlaced = some [] ∧
      d_with [] ≠ (dispatcher.empty : dispatcher Nat Nat) := by
  refine ⟨rfl, ?_, rfl, ?_⟩
  · rw [dispatcher.dispatch_eq env0 dispatcher.empty OrderPlaced 7 rfl]
    rfl
  · intro h
    have h1 := congrArg (fun d : dispatcher Nat Nat => d.m_listeners OrderPlaced) h
    simp [d_with, dispatcher.empty, Registry.store] at h1

/-- C5, amended: a publish adds no listener, removes none and reorders none, in any bucket;
it leaves the registry exactly as it was when the bucket for the type key of the event
exists; when that bucket is absent it invokes nothing and returns normally, and the one
change to the registry is that an empty bucket now exists under that key. -/
theorem C5_dispatch_keeps_listeners (env : Env) (d : dispatcher V X) (T : CType) (e : V)
    (hT : signal_static_assert env T = true) :
    ∃ out, d.dispatch env T e = some out ∧
      (∀ k, out.state.bucket k = d.bucket k) ∧
      (∀ k, k ≠ typeid T → out.state.m_listeners k = d.m_listeners k) ∧
      (d.m_listeners (typeid T) ≠ none → out.state = d) ∧
      (d.m_listeners (typeid T) = none →
        out.trace = [] ∧ out.result = .ok () ∧ out.state.m_listeners (typeid T) = some []) := by
  refine ⟨_, dispatcher.dispatch_eq env d T e hT, ?_, ?_, ?_, ?_⟩
  · intro k
    by_cases hk : k = typeid T
    · subst hk
      exact dispatcher.bucket_store_same _ _ _
    · exact dispatcher.bucket_store_ne _ _ _ _ hk
  · intro k hk
    exact Registry.store_apply_ne _ _ _ _ hk
  · intro hpres
    cases hv : d.m_listeners (typeid T) with
    | none => exact absurd hv hpres
    | some v =>
      have h1 : d.m_listeners.store (typeid T) (d.bucket (typeid T)) = d.m_listeners := by
        show d.m_listeners.store (typeid T) (d.m_listeners.at (typeid T)) = d.m_listeners
        rw [← Registry.subscript_eq_store, Registry.subscript_of_some _ _ v hv]
      cases d
      simpa using h1
  · intro habs
    have hb : d.bucket (typeid T) = [] := by simp [dispatcher.bucket, Registry.at, habs]
    simp [hb, invoke_each, Registry.store]

/-- C5 amended, at a dispatcher whose bucket for `OrderPlaced` exists: the publish hands the
dispatcher back as it was. -/
theorem C5_dispatch_keeps_listeners_witness :
    signal_static_assert env0 OrderPlaced = true ∧
      ∃ out, (d_with [L_ok 1]).dispatch env0 OrderPlaced 7 = some out ∧
        out.state = d_with [L_ok 1] := by
  obtain ⟨out, h1, _, _, h4, _⟩ :=
    C5_dispatch_keeps_listeners env0 (d_with [L_ok 1]) OrderPlaced 7 rfl
  refine ⟨rfl, out, h1, h4 ?_⟩
  simp [d_with, Registry.store, typeid, remove_reference, remove_cv, OrderPlaced]

/-- C6, as stated, fails in a state where the callable is already subscribed: after
`d += f; d += g` the bucket is `[Lf, Lg]`; `d += f` makes it `[Lf, Lg, Lf]` and the
`d -= f` that follows erases the first `Lf`, not the one just added, leaving `[Lg, Lf]`,
which is not the sequence `[Lf, Lg]` the bucket held before the subscribe. -/
theorem C6_counterexample :
    (dispatcher.empty : dispatcher Nat Nat).operator_plus_eq env0 (fn_pointer 1000 100) =
        some (d_with [L_ok 100]) ∧
      (d_with [L_ok 100]).operator_plus_eq env0 (fn_pointer 1001 200) =
        some (d_with [L_ok 100, L_ok 200]) ∧
      (d_with [L_ok 100, L_ok 200]).operator_plus_eq env0 (fn_pointer 1000 100) =
        some (d_with [L_ok 100, L_ok 200, L_ok 100]) ∧
      (d_with [L_ok 100, L_ok 200, L_ok 100]).operator_minus_eq env0 (fn_pointer 1000 100) =
        some (d_with [L_ok 200, L_ok 100]) ∧
      (d_with [L_ok 200, L_ok 100]).bucket OrderPlaced ≠
        (d_with [L_ok 100, L_ok 200]).bucket OrderPlaced := by
  refine ⟨empty_subscribe _ fp_OrderPlaced rfl (by decide) (by decide),
    d_with_subscribe _ _ fp_OrderPlaced rfl (by decide) (by decide),
    d_with_subscribe _ _ fp_OrderPlaced rfl (by decide) (by decide),
    d_with_unsubscribe _ _ (by decide), ?_⟩
  rw [d_with_bucket, d_with_bucket]
  intro h
  have h1 := congrArg (fun v : List (listener Nat Nat) => v.map (fun l => l.m_addr)) h
  simp [L_ok] at h1

/-- C6, amended: in a state where no listener of the bucket for the event type of `C` has the
identity of `C`, `unsubscribe(C)` issued right after `subscribe(C)` removes exactly the
listener that the subscribe appended: the bucket holds again the listener sequence it held
before, and so does every other bucket. For an event on which the listeners already in the
bucket return normally, the publish issued between the two calls invokes the listener of `C`,
last, and the publish issued after them invokes the same listeners but that one. -/
theorem C6_unsubscribe_undoes_subscribe (env : Env) (d d1 : dispatcher V X) (c : Callable V X)
    (W E : CType) (hW : function_wrapper.wrap_type env c.ty = some W)
    (hE : dispatcher.wrap_add.E W = some E)
    (hsub : d.operator_plus_eq env c = some d1)
    (hfresh : ∀ l ∈ d.bucket (typeid E), l.m_addr ≠ pointer_memory.address_for c) :
    d1.bucket (typeid E) = d.bucket (typeid E) ++ [⟨c.call, pointer_memory.address_for c⟩] ∧
      ∃ d2, d1.operator_minus_eq env c = some d2 ∧ (∀ k, d2.bucket k = d.bucket k) ∧
        ∀ T e, typeid T = typeid E → signal_static_assert env T = true →
          (∀ g ∈ d.bucket (typeid E), g.call e = .ok ()) →
          ∃ out1 out2, d1.dispatch env T e = some out1 ∧ d2.dispatch env T e = some out2 ∧
            out1.trace = out2.trace ++ [(⟨c.call, pointer_memory.address_for c⟩, e)] ∧
            out1.trace.length = out2.trace.length + 1 := by
  obtain ⟨W1, E1, hW1, hE1, hs, hd1, _⟩ := dispatcher.operator_plus_eq_some env d d1 c hsub
  have hWW : W1 = W := Option.some.inj (hW1.symm.trans hW)
  subst hWW
  have hEE : E1 = E := Option.some.inj (hE1.symm.trans hE)
  subst hEE
  obtain ⟨T1, hT1, hkey, hfd⟩ := resolve_agree env c.ty W1 E1 hW hE
  have hs1 : signal_static_assert env T1 = true := by
    rw [signal_static_assert_congr env T1 E1 hfd]; exact hs
  subst hd1
  have hb1 : (dispatcher.mk (d.m_listeners.store (typeid E1)
      (d.bucket (typeid E1) ++ [⟨c.call, pointer_memory.address_for c⟩]))).bucket (typeid E1) =
      d.bucket (typeid E1) ++ [⟨c.call, pointer_memory.address_for c⟩] :=
    dispatcher.bucket_store_same _ _ _
  have hrem := dispatcher.remove_eq env (dispatcher.mk (d.m_listeners.store (typeid E1)
      (d.bucket (typeid E1) ++ [⟨c.call, pointer_memory.address_for c⟩]))) c T1 hT1 hs1
  rw [hkey, hb1] at hrem
  have hlast := find_if_append_last
    (fun check : listener V X => check.eq_addr (pointer_memory.address_for c))
    (d.bucket (typeid E1)) ⟨c.call, pointer_memory.address_for c⟩
    (fun y hy => by simpa [listener.eq_addr] using hfresh y hy) (by simp [listener.eq_addr])
  rw [hlast.1, hlast.2, Registry.store_store] at hrem
  have hb2 : ∀ k, (dispatcher.mk (d.m_listeners.store (typeid E1) (d.bucket (typeid E1)))).bucket k
      = d.bucket k := by
    intro k
    by_cases hk : k = typeid E1
    · subst hk
      exact dispatcher.bucket_store_same _ _ _
    · exact dispatcher.bucket_store_ne _ _ _ _ hk
  refine ⟨hb1, _, hrem, hb2, ?_⟩
  intro T e hTk hTs hok
  refine ⟨_, _, dispatcher.dispatch_eq env _ T e hTs, dispatcher.dispatch_eq env _ T e hTs,
    ?_, ?_⟩
  · simp only [hTk, hb1, hb2]
    exact invoke_each_append_last e _ _ hok
  · simp only [hTk, hb1, hb2]
    rw [invoke_each_append_last e _ _ hok]
    simp

/-- C6 amended, at the bucket `[L200]` and the function pointer with target address `100`:
the subscribe gives `[L200, L100]`, the unsubscribe gives `[L200]` back. -/
theorem C6_unsubscribe_undoes_subscribe_witness :
    function_wrapper.wrap_type env0 (fn_pointer 1000 100).ty = some fp_OrderPlaced ∧
      dispatcher.wrap_add.E fp_OrderPlaced = some (.lref (.const_ OrderPlaced)) ∧
      (d_with [L_ok 200]).operator_plus_eq env0 (fn_pointer 1000 100) =
        some (d_with [L_ok 200, L_ok 100]) ∧
      (∀ l ∈ (d_with [L_ok 200]).bucket (typeid (.lref (.const_ OrderPlaced))),
        l.m_addr ≠ pointer_memory.address_for (fn_pointer 1000 100)) ∧
      ∃ d2, (d_with [L_ok 200, L_ok 100]).operator_minus_eq env0 (fn_pointer 1000 100) =
        some d2 ∧ d2.bucket OrderPlaced = [L_ok 200] := by
  have hsub : (d_with [L_ok 200]).operator_plus_eq env0 (fn_pointer 1000 100) =
      some (d_with [L_ok 200, L_ok 100]) :=
    d_with_subscribe _ _ fp_OrderPlaced rfl (by decide) (by decide)
  have hfresh : ∀ l ∈ (d_with [L_ok 200]).bucket (typeid (.lref (.const_ OrderPlaced))),
      l.m_addr ≠ pointer_memory.address_for (fn_pointer 1000 100) := by
    intro l hl
    rw [typeid_param_OrderPlaced, d_with_bucket, List.mem_singleton] at hl
    subst hl
    decide
  obtain ⟨_, d2, h2, h3, _⟩ :=
    C6_unsubscribe_undoes_subscribe env0 (d_with [L_ok 200]) _ (fn_pointer 1000 100)
      fp_OrderPlaced (.lref (.const_ OrderPlaced)) rfl (by decide) hsub hfresh
  exact ⟨rfl, by decide, hsub, hfresh, d2, h2, by rw [h3, d_with_bucket]⟩

/-- C7: a publish is fail-fast. When the bucket is `pre ++ Lk :: post`, every listener of
`pre` returns normally on `e` and `Lk` raises `x`, the listeners of `pre` and then `Lk` are
invoked in order, none of `post` is invoked, and the publish ends with the failure `x`
itself. -/
theorem C7_dispatch_fail_fast (env : Env) (d : dispatcher V X) (T : CType) (e : V)
    (pre post : List (listener V X)) (Lk : listener V X) (x : X)
    (hT : signal_static_assert env T = true)
    (hb : d.bucket (typeid T) = pre ++ Lk :: post)
    (hpre : ∀ g ∈ pre, g.call e = .ok ()) (hk : Lk.call e = .error x) :
    ∃ out, d.dispatch env T e = some out ∧
      out.trace = (pre ++ [Lk]).map (fun g => (g, e)) ∧
      out.trace.length + post.length = (d.bucket (typeid T)).length ∧
      out.result = .error x := by
  refine ⟨_, dispatcher.dispatch_eq env d T e hT, ?_, ?_, ?_⟩
  · simp only [hb, invoke_each_fail e pre post Lk x hpre hk]
  · simp only [hb, invoke_each_fail e pre post Lk x hpre hk]
    simp
    omega
  · simp only [hb, invoke_each_fail e pre post Lk x hpre hk]

/-- C7 at the bucket `[L1, L2, L3]` where `L2` raises `99`: the trace is `[(L1,7), (L2,7)]`
and the publish ends with `99`. -/
theorem C7_dispatch_fail_fast_witness :
    signal_static_assert env0 OrderPlaced = true ∧
      (d_with [L_ok 1, L_fail 2 99, L_ok 3]).bucket (typeid OrderPlaced) =
        [L_ok 1] ++ L_fail 2 99 :: [L_ok 3] ∧
      (∀ g ∈ [L_ok 1], g.call 7 = .ok ()) ∧ (L_fail 2 99).call 7 = .error 99 ∧
      ∃ out, (d_with [L_ok 1, L_fail 2 99, L_ok 3]).dispatch env0 OrderPlaced 7 = some out ∧
        out.trace = [(L_ok 1, 7), (L_fail 2 99, 7)] ∧ out.result = .error 99 := by
  have hpre : ∀ g ∈ [L_ok 1], g.call 7 = .ok () := by
    intro g hg
    rw [List.mem_singleton] at hg
    subst hg
    rfl
  obtain ⟨out, h1, h2, _, h4⟩ :=
    C7_dispatch_fail_fast env0 (d_with [L_ok 1, L_fail 2 99, L_ok 3]) OrderPlaced 7
      [L_ok 1] [L_ok 3] (L_fail 2 99) 99 rfl rfl hpre rfl
  exact ⟨rfl, rfl, hpre, rfl, out, h1, h2, h4⟩

/-- C8: let `C` and `C1` be callables of the same type with the same code and the same
captures, neither a pointer, stored at different addresses. The identity computed for `C1`
differs from the one stored for `C`, so `subscribe(C)` followed by `unsubscribe(C1)` does
not remove the listener of `C`: it is still in its bucket, last, behind whatever the
unsubscribe left of the earlier listeners, and a later publish invokes it whenever the
listeners ahead of it return normally. -/
theorem C8_copy_with_other_storage_does_not_unsubscribe (env : Env) (d d1 : dispatcher V X)
    (c c1 : Callable V X) (W E : CType)
    (hW : function_wrapper.wrap_type env c.ty = some W)
    (hE : dispatcher.wrap_add.E W = some E)
    (hty : c1.ty = c.ty) (hcode : c1.call = c.call) (hcap : c1.contents = c.contents)
    (hptr : is_pointer c.ty = false) (hst : c1.storage ≠ c.storage)
    (hsub : d.operator_plus_eq env c = some d1) :
    pointer_memory.address_for c1 ≠ pointer_memory.address_for c ∧
      ∃ d2, d1.operator_minus_eq env c1 = some d2 ∧
        d2.bucket (typeid E) =
          erase (d.bucket (typeid E))
            (find_if (fun check => check.eq_addr (pointer_memory.address_for c1))
              (d.bucket (typeid E))) ++ [⟨c.call, pointer_memory.address_for c⟩] ∧
        (⟨c.call, pointer_memory.address_for c⟩ : listener V X) ∈ d2.bucket (typeid E) ∧
        ∀ T e, typeid T = typeid E → signal_static_assert env T = true →
          (∀ g ∈ erase (d.bucket (typeid E))
            (find_if (fun check => check.eq_addr (pointer_memory.address_for c1))
              (d.bucket (typeid E))), g.call e = .ok ()) →
          ∃ out, d2.dispatch env T e = some out ∧
            ((⟨c.call, pointer_memory.address_for c⟩ : listener V X), e) ∈ out.trace := by
  have hsame : c1.call = c.call ∧ c1.contents = c.contents := ⟨hcode, hcap⟩
  have haddr : pointer_memory.address_for c1 ≠ pointer_memory.address_for c := by
    simp [pointer_memory.address_for, hty, hptr, hst]
  obtain ⟨W1, E1, hW1, hE1, hs, hd1, _⟩ := dispatcher.operator_plus_eq_some env d d1 c hsub
  have hWW : W1 = W := Option.some.inj (hW1.symm.trans hW)
  subst hWW
  have hEE : E1 = E := Option.some.inj (hE1.symm.trans hE)
  subst hEE
  obtain ⟨T1, hT1, hkey, hfd⟩ := resolve_agree env c.ty W1 E1 hW hE
  have hs1 : signal_static_assert env T1 = true := by
    rw [signal_static_assert_congr env T1 E1 hfd]; exact hs
  subst hd1
  have hb1 : (dispatcher.mk (d.m_listeners.store (typeid E1)
      (d.bucket (typeid E1) ++ [⟨c.call, pointer_memory.address_for c⟩]))).bucket (typeid E1) =
      d.bucket (typeid E1) ++ [⟨c.call, pointer_memory.address_for c⟩] :=
    dispatcher.bucket_store_same _ _ _
  have hrem := dispatcher.remove_eq env (dispatcher.mk (d.m_listeners.store (typeid E1)
      (d.bucket (typeid E1) ++ [⟨c.call, pointer_memory.address_for c⟩]))) c1 T1
      (by rw [hty]; exact hT1) hs1
  rw [hkey, hb1] at hrem
  have hkeep := erase_find_if_append_right
    (fun check : listener V X => check.eq_addr (pointer_memory.address_for c1))
    (d.bucket (typeid E1)) ⟨c.call, pointer_memory.address_for c⟩
    (by simpa [listener.eq_addr] using fun h => haddr h.symm)
  rw [hkeep, Registry.store_store] at hrem
  refine ⟨haddr, _, hrem, ?_, ?_, ?_⟩
  · rw [dispatcher.bucket_store_same]
  · rw [dispatcher.bucket_store_same]
    simp
  · intro T e hTk hTs hok
    refine ⟨_, dispatcher.dispatch_eq env _ T e hTs, ?_⟩
    simp only [hTk, dispatcher.bucket_store_same]
    have hreach := invoke_each_reaches e _ [] ⟨c.call, pointer_memory.address_for c⟩ hok
    exact hreach.subset (by simp)

/-- C8 at two closures with the same body and captures stored at `700` and `800`: after the
first is subscribed and the second unsubscribed, the listener of the first is still there. -/
theorem C8_copy_with_other_storage_does_not_unsubscribe_witness :
    function_wrapper.wrap_type env0 (closure_at 700 [5]).ty = some closure_OrderPlaced ∧
      dispatcher.wrap_add.E closure_OrderPlaced = some (.lref (.const_ OrderPlaced)) ∧
      (closure_at 800 [5]).ty = (closure_at 700 [5]).ty ∧
      (closure_at 800 [5]).call = (closure_at 700 [5]).call ∧
      (closure_at 800 [5]).contents = (closure_at 700 [5]).contents ∧
      is_pointer (closure_at 700 [5]).ty = false ∧
      (closure_at 800 [5]).storage ≠ (closure_at 700 [5]).storage ∧
      (dispatcher.empty : dispatcher Nat Nat).operator_plus_eq env0 (closure_at 700 [5]) =
        some (d_with [L_ok 700]) ∧
      ∃ d2, (d_with [L_ok 700]).operator_minus_eq env0 (closure_at 800 [5]) = some d2 ∧
        L_ok 700 ∈ d2.bucket OrderPlaced := by
  have hsub : (dispatcher.empty : dispatcher Nat Nat).operator_plus_eq env0
      (closure_at 700 [5]) = some (d_with [L_ok 700]) :=
    empty_subscribe _ closure_OrderPlaced rfl (by decide) (by decide)
  obtain ⟨_, d2, h2, _, h4, _⟩ :=
    C8_copy_with_other_storage_does_not_unsubscribe env0 dispatcher.empty _
      (closure_at 700 [5]) (closure_at 800 [5]) closure_OrderPlaced
      (.lref (.const_ OrderPlaced)) rfl (by decide) rfl rfl rfl (by decide) (by decide) hsub
  exact ⟨rfl, by decide, rfl, rfl, rfl, by decide, by decide, hsub, d2, h2, h4⟩

/-- C10, as stated, fails: two bind objects built from the same handler (at address `50`) and
the same receiver (at address `60`) but stored at `500` and `600` get the identities `500`
and `600`, their own addresses, not the address `50` of the inner function; the identities
differ, and an unsubscribe with the second does not remove the subscription of the first. -/
theorem C10_counterexample :
    (binding_at 600 50 60).contents = (binding_at 500 50 60).contents ∧
      spec_binding_identity (binding_at 500 50 60) = some 50 ∧
      pointer_memory.address_for (binding_at 500 50 60) = 500 ∧
      pointer_memory.address_for (binding_at 600 50 60) = 600 ∧
      (dispatcher.empty : dispatcher Nat Nat).operator_plus_eq env0 (binding_at 500 50 60) =
        some (d_with [L_ok 500]) ∧
      (d_with [L_ok 500]).operator_minus_eq env0 (binding_at 600 50 60) =
        some (d_with [L_ok 500]) := by
  refine ⟨rfl, rfl, rfl, rfl, ?_, ?_⟩
  · exact empty_subscribe _ _ (by decide :
      function_wrapper.wrap_type env0 (binding_at 500 50 60).ty = some (.tmpl std_function
        (.cons (.fn .void_ (.cons (.lref (.const_ OrderPlaced)) .nil)) .nil))) (by decide)
      (by decide)
  · rw [d_with_unsubscribe _ _ (by decide)]
    rfl

/-- C10, amended: for a bind expression (a class template instantiation, not a pointer) the
identity that subscribe and unsubscribe compute is the address of the bind object itself,
whatever function and receiver it binds; the binding is unwrapped only to resolve the event
type. In a state where no listener of the bucket has the identity of the binding presented
to unsubscribe, an unsubscribe with a binding of the same type undoes the subscribe when
the two bindings have the same storage address and leaves the subscription in place when
they do not. -/
theorem C10_binding_identity_is_own_address (env : Env) (d d1 : dispatcher V X)
    (b b1 : Callable V X) (W E : CType)
    (hbind : env.is_bind_expression b.ty = true) (htmpl : has_template_params b.ty = true)
    (hW : function_wrapper.wrap_type env b.ty = some W)
    (hE : dispatcher.wrap_add.E W = some E)
    (hty : b1.ty = b.ty) (hsub : d.operator_plus_eq env b = some d1)
    (hfresh : ∀ l ∈ d.bucket (typeid E), l.m_addr ≠ b1.storage) :
    pointer_memory.address_for b = b.storage ∧ pointer_memory.address_for b1 = b1.storage ∧
      d1.bucket (typeid E) = d.bucket (typeid E) ++ [⟨b.call, b.storage⟩] ∧
      ∃ d2, d1.operator_minus_eq env b1 = some d2 ∧
        (b1.storage = b.storage → d2.bucket (typeid E) = d.bucket (typeid E)) ∧
        (b1.storage ≠ b.storage →
          d2.bucket (typeid E) = d.bucket (typeid E) ++ [⟨b.call, b.storage⟩]) := by
  have hbindexpr : env.is_bind_expression b.ty = true := hbind
  have hptr : is_pointer b.ty = false := by
    cases hb : b.ty <;> simp [hb, has_template_params] at htmpl <;>
      simp [is_pointer, remove_cv]
  have ha : pointer_memory.address_for b = b.storage := by
    simp [pointer_memory.address_for, hptr]
  have ha1 : pointer_memory.address_for b1 = b1.storage := by
    simp [pointer_memory.address_for, hty, hptr]
  obtain ⟨W1, E1, hW1, hE1, hs, hd1, _⟩ := dispatcher.operator_plus_eq_some env d d1 b hsub
  have hWW : W1 = W := Option.some.inj (hW1.symm.trans hW)
  subst hWW
  have hEE : E1 = E := Option.some.inj (hE1.symm.trans hE)
  subst hEE
  obtain ⟨T1, hT1, hkey, hfd⟩ := resolve_agree env b.ty W1 E1 hW hE
  have hs1 : signal_static_assert env T1 = true := by
    rw [signal_static_assert_congr env T1 E1 hfd]; exact hs
  subst hd1
  rw [ha]
  have hb1 : (dispatcher.mk (d.m_listeners.store (typeid E1)
      (d.bucket (typeid E1) ++ [⟨b.call, b.storage⟩]))).bucket (typeid E1) =
      d.bucket (typeid E1) ++ [⟨b.call, b.storage⟩] :=
    dispatcher.bucket_store_same _ _ _
  have hrem := dispatcher.remove_eq env (dispatcher.mk (d.m_listeners.store (typeid E1)
      (d.bucket (typeid E1) ++ [⟨b.call, b.storage⟩]))) b1 T1 (by rw [hty]; exact hT1) hs1
  rw [hkey, hb1, ha1] at hrem
  have hnone : find_if (fun check : listener V X => check.eq_addr b1.storage)
      (d.bucket (typeid E1)) = (d.bucket (typeid E1)).length := by
    rw [find_if_eq_length_iff]
    intro l hl
    simpa [listener.eq_addr] using hfresh l hl
  refine ⟨rfl, ha1, hb1, _, hrem, ?_, ?_⟩
  · intro hsame
    have hlast := find_if_append_last
      (fun check : listener V X => check.eq_addr b1.storage)
      (d.bucket (typeid E1)) ⟨b.call, b.storage⟩
      (fun y hy => by simpa [listener.eq_addr] using hfresh y hy)
      (by simp [listener.eq_addr, hsame])
    rw [dispatcher.bucket_store_same, hlast.1, hlast.2]
  · intro hdiff
    have hkeep := erase_find_if_append_right
      (fun check : listener V X => check.eq_addr b1.storage)
      (d.bucket (typeid E1)) ⟨b.call, b.storage⟩
      (by simpa [listener.eq_addr] using fun h => hdiff h.symm)
    rw [dispatcher.bucket_store_same, hkeep, hnone, erase_length]

/-- C10 amended, at the bind objects stored at `500` and `600`: the first has the identity
`500`, and the unsubscribe with the second leaves its listener in the bucket. -/
theorem C10_binding_identity_is_own_address_witness :
    env0.is_bind_expression (binding_at 500 50 60).ty = true ∧
      has_template_params (binding_at 500 50 60).ty = true ∧
      (binding_at 600 50 60).ty = (binding_at 500 50 60).ty ∧
      (dispatcher.empty : dispatcher Nat Nat).operator_plus_eq env0 (binding_at 500 50 60) =
        some (d_with [L_ok 500]) ∧
      (∀ l ∈ (dispatcher.empty : dispatcher Nat Nat).bucket
        (typeid (.lref (.const_ OrderPlaced))), l.m_addr ≠ (binding_at 600 50 60).storage) ∧
      pointer_memory.address_for (binding_at 500 50 60) = 500 ∧
      ∃ d2, (d_with [L_ok 500]).operator_minus_eq env0 (binding_at 600 50 60) = some d2 ∧
        d2.bucket OrderPlaced = [L_ok 500] := by
  have hW : function_wrapper.wrap_type env0 (binding_at 500 50 60).ty = some (.tmpl std_function
      (.cons (.fn .void_ (.cons (.lref (.const_ OrderPlaced)) .nil)) .nil)) := by decide
  have hsub : (dispatcher.empty : dispatcher Nat Nat).operator_plus_eq env0
      (binding_at 500 50 60) = some (d_with [L_ok 500]) :=
    empty_subscribe _ _ hW (by decide) (by decide)
  have hfresh : ∀ l ∈ (dispatcher.empty : dispatcher Nat Nat).bucket
      (typeid (.lref (.const_ OrderPlaced))), l.m_addr ≠ (binding_at 600 50 60).storage := by
    intro l hl
    simp [dispatcher.bucket, dispatcher.empty, Registry.at] at hl
  obtain ⟨h1, _, _, d2, h4, _, h6⟩ :=
    C10_binding_identity_is_own_address env0 dispatcher.empty _ (binding_at 500 50 60)
      (binding_at 600 50 60) _ (.lref (.const_ OrderPlaced)) rfl rfl hW (by decide) rfl hsub
      hfresh
  refine ⟨rfl, rfl, rfl, hsub, hfresh, h1, d2, h4, ?_⟩
  have h7 := h6 (by decide)
  rw [typeid_param_OrderPlaced] at h7
  rw [h7]
  rfl

/-- C11: identity inference is asymmetric. For a callable of pointer type the identity is the
address of the pointee, whatever the address of the pointer variable: two pointer variables
at different addresses that hold the same pointee get equal identities. For a callable that
is not a pointer (a function object, a closure, a bind object) the identity is the address of
the storage of the callable itself, whatever it holds. -/
theorem C11_identity_pointee_or_own_storage (p q : Callable V X) :
    (is_pointer p.ty = true → pointer_memory.address_for p = p.pointee) ∧
      (is_pointer p.ty = true → is_pointer q.ty = true → q.pointee = p.pointee →
        pointer_memory.address_for q = pointer_memory.address_for p) ∧
      (is_pointer p.ty = false → pointer_memory.address_for p = p.storage) ∧
      (∀ t, is_pointer (.ptr t) = true ∧ is_pointer (.const_ (.ptr t)) = true) ∧
      (∀ n call args b, is_pointer (.functor n call) = false ∧ is_pointer (.cls n) = false ∧
        is_pointer (.tmpl n args) = false ∧ is_pointer (.tmplB n b args) = false) := by
  refine ⟨?_, ?_, ?_, ?_, ?_⟩
  · intro hp
    simp [pointer_memory.address_for, hp]
  · intro hp hq hpq
    simp [pointer_memory.address_for, hp, hq, hpq]
  · intro hp
    simp [pointer_memory.address_for, hp]
  · intro t
    simp [is_pointer, remove_cv]
  · intro n call args b
    simp [is_pointer, remove_cv]

/-- C11 at two pointer variables stored at `1000` and `2000` that hold the function at `100`,
and at a closure stored at `700`: the identities are `100`, `100` and `700`. -/
theorem C11_identity_pointee_or_own_storage_witness :
    is_pointer (fn_pointer 1000 100).ty = true ∧ is_pointer (fn_pointer 2000 100).ty = true ∧
      (fn_pointer 1000 100).storage ≠ (fn_pointer 2000 100).storage ∧
      pointer_memory.address_for (fn_pointer 2000 100) =
        pointer_memory.address_for (fn_pointer 1000 100) ∧
      pointer_memory.address_for (fn_pointer 1000 100) = 100 ∧
      is_pointer (closure_at 700 [5]).ty = false ∧
      pointer_memory.address_for (closure_at 700 [5]) = 700 := by
  have h := C11_identity_pointee_or_own_storage (fn_pointer 1000 100) (fn_pointer 2000 100)
  have h1 := C11_identity_pointee_or_own_storage (closure_at 700 [5]) (closure_at 700 [5])
  exact ⟨by decide, by decide, by decide, h.2.1 (by decide) (by decide) rfl,
    h.1 (by decide), by decide, h1.2.2.1 (by decide)⟩

/-- C12: a subscribe of a callable `C` whose event type resolves to `E` is accepted and appends
exactly one listener at the end of the bucket for `TypeKey(E)`: the listeners that were there
stay in place as an initial segment, the length grows by one, the new last listener carries
the identity of `C`, and the entry of the registry under every other key is unchanged. -/
theorem C12_subscribe_appends_one_listener (env : Env) (d : dispatcher V X) (c : Callable V X)
    (W E : CType) (hW : function_wrapper.wrap_type env c.ty = some W)
    (hE : dispatcher.wrap_add.E W = some E)
    (hacc : std_function_accepts env W E = true)
    (hs : signal_static_assert env E = true) :
    ∃ d1, d.operator_plus_eq env c = some d1 ∧
      d1.bucket (typeid E) = d.bucket (typeid E) ++ [⟨c.call, pointer_memory.address_for c⟩] ∧
      d.bucket (typeid E) <+: d1.bucket (typeid E) ∧
      (d1.bucket (typeid E)).length = (d.bucket (typeid E)).length + 1 ∧
      (d1.bucket (typeid E)).getLast?.map (fun l => l.m_addr) =
        some (pointer_memory.address_for c) ∧
      ∀ k, k ≠ typeid E → d1.m_listeners k = d.m_listeners k := by
  refine ⟨_, dispatcher.operator_plus_eq_eq env d c W E hW hE hs hacc, ?_, ?_, ?_, ?_, ?_⟩
  · exact dispatcher.bucket_store_same _ _ _
  · rw [dispatcher.bucket_store_same]
    exact List.prefix_append _ _
  · rw [dispatcher.bucket_store_same]
    simp
  · rw [dispatcher.bucket_store_same]
    simp
  · intro k hk
    exact Registry.store_apply_ne _ _ _ _ hk

/-- C12 at the bucket `[L200]` and the function pointer with target address `100`: the bucket
becomes `[L200, L100]`. -/
theorem C12_subscribe_appends_one_listener_witness :
    function_wrapper.wrap_type env0 (fn_pointer 1000 100).ty = some fp_OrderPlaced ∧
      dispatcher.wrap_add.E fp_OrderPlaced = some (.lref (.const_ OrderPlaced)) ∧
      std_function_accepts env0 fp_OrderPlaced (.lref (.const_ OrderPlaced)) = true ∧
      signal_static_assert env0 (.lref (.const_ OrderPlaced)) = true ∧
      ∃ d1, (d_with [L_ok 200]).operator_plus_eq env0 (fn_pointer 1000 100) = some d1 ∧
        d1.bucket OrderPlaced = [L_ok 200, L_ok 100] := by
  obtain ⟨d1, h1, h2, _⟩ :=
    C12_subscribe_appends_one_listener env0 (d_with [L_ok 200]) (fn_pointer 1000 100)
      fp_OrderPlaced (.lref (.const_ OrderPlaced)) rfl (by decide) (by decide) rfl
  refine ⟨rfl, by decide, by decide, rfl, d1, h1, ?_⟩
  rw [typeid_param_OrderPlaced, d_with_bucket] at h2
  rw [h2]
  rfl

/-- C13, as stated, fails for two or more parameters: for the function pointer type
`void(*)(const OrderPlaced&, Count)`, which declares two parameters, `function_param_at<F, 0>`
is not rejected but resolves `const OrderPlaced&`; an unsubscribe with such a pointer is
accepted (and here removes the listener at its address); and a bind expression over that
two-parameter function is accepted by subscribe, which registers a listener. -/
theorem C13_counterexample :
    func_traits fp_two_parameters =
        some (.void_, .cons (.lref (.const_ OrderPlaced)) (.cons (.cls 4) .nil)) ∧
      function_param_at fp_two_parameters 0 = some (.lref (.const_ OrderPlaced)) ∧
      (d_with [L_ok 100]).operator_minus_eq env0 (callable_at fp_two_parameters 1000 100) =
        some (d_with []) ∧
      function_in_binding bind_two_parameters = some fp_two_parameters ∧
      (dispatcher.empty : dispatcher Nat Nat).operator_plus_eq env0
        (callable_at bind_two_parameters 500 0) = some (d_with [L_ok 500]) := by
  refine ⟨by decide, by decide, ?_, by decide, ?_⟩
  · rw [d_with_unsubscribe _ _ (by decide)]
    rfl
  · exact empty_subscribe _ _ (by decide :
      function_wrapper.wrap_type env0 (callable_at bind_two_parameters 500 0).ty =
        some (.tmpl std_function
          (.cons (.fn .void_ (.cons (.lref (.const_ OrderPlaced)) .nil)) .nil)))
      (by decide) (by decide)

/-- C13, amended: let `F` be the function type resolved for a callable (the callable type
itself, or the inner function of a bind expression). When `F` declares no parameter,
`function_param_at<F, 0>` is rejected by its `static_assert`, and with it both subscribe and
unsubscribe: no listener is registered. When `F` declares two or more parameters,
`function_param_at<F, 0>` is not rejected, it resolves the first parameter, and unsubscribe
accepts the callable. Subscribe of such a callable is rejected, and registers nothing, when
the callable cannot be used with one argument: when the `std::function<void(E)>` of the
listener cannot be constructed from it, or, for a bind expression, when the bind object
cannot be called with a `const E&`. -/
theorem C13_arity_zero_rejected_by_resolution (env : Env) (d : dispatcher V X)
    (c : Callable V X) (F r : CType) (args : CTypes)
    (hF : function_type_for_t env c.ty = some F) (hft : func_traits F = some (r, args)) :
    (args.length = 0 →
        function_param_at F 0 = none ∧ d.operator_plus_eq env c = none ∧
        d.operator_minus_eq env c = none) ∧
      (2 ≤ args.length →
        ∃ E, args.get? 0 = some E ∧ function_param_at F 0 = some E ∧
          dispatcher.remove.T env c.ty = some E ∧
          (signal_static_assert env E = true → ∃ d1, d.operator_minus_eq env c = some d1) ∧
          (env.is_bind_expression c.ty = false → std_function_accepts env c.ty E = false →
            d.operator_plus_eq env c = none) ∧
          (env.is_bind_expression c.ty = true →
            env.is_invocable c.ty (add_const_lref E) = false →
            d.operator_plus_eq env c = none)) := by
  obtain ⟨F0, hF0, hFeq⟩ := function_type_for_t_some env c.ty F hF
  have hT : dispatcher.remove.T env c.ty = function_param_at F 0 := by
    simp [dispatcher.remove.T, hF]
  constructor
  · intro h0
    have hp : function_param_at F 0 = none := by
      simp [function_param_at, hft, func_trait_helper.arg, h0]
    refine ⟨hp, ?_, ?_⟩
    · by_cases hb : env.is_bind_expression c.ty = true
      · simp only [hb, if_true] at hFeq
        subst hFeq
        simp [dispatcher.operator_plus_eq, function_wrapper.wrap_type, hb,
          function_wrapper.E, hF0, hp]
      · simp only [hb, Bool.false_eq_true, if_false] at hFeq
        subst hFeq
        simp [dispatcher.operator_plus_eq, function_wrapper.wrap_type, hb,
          dispatcher.wrap_add, dispatcher.wrap_add.E, hp]
    · simp [dispatcher.operator_minus_eq, dispatcher.remove, hT, hp]
  · intro h2
    obtain ⟨E, hE⟩ := CTypes.get?_zero_of_length args (by omega)
    have hp : function_param_at F 0 = some E := by
      have hlt : 0 < args.length := by omega
      simp [function_param_at, hft, func_trait_helper.arg, hlt, hE]
    refine ⟨E, hE, hp, hT.trans hp, ?_, ?_, ?_⟩
    · intro hs
      exact ⟨_, dispatcher.remove_eq env d c E (hT.trans hp) hs⟩
    · intro hb hacc
      simp only [hb, Bool.false_eq_true, if_false] at hFeq
      subst hFeq
      simp [dispatcher.operator_plus_eq, function_wrapper.wrap_type, hb,
        dispatcher.wrap_add, dispatcher.wrap_add.E, hp, hacc]
    · intro hb hinv
      simp only [hb, if_true] at hFeq
      subst hFeq
      simp [dispatcher.operator_plus_eq, function_wrapper.wrap_type, hb,
        function_wrapper.E, hF0, hp, hinv]

/-- C13 amended, at a function pointer with no parameter and at one with two: the first is
rejected by subscribe; for the second the first parameter resolves, the unsubscribe is
accepted and the subscribe is rejected, the pointer not being callable with one argument. -/
theorem C13_arity_zero_rejected_by_resolution_witness :
    function_type_for_t env0 (callable_at fp_no_parameter 1000 100).ty = some fp_no_parameter ∧
      func_traits fp_no_parameter = some (.void_, .nil) ∧
      (d_with [L_ok 100]).operator_plus_eq env0 (callable_at fp_no_parameter 1000 100) = none ∧
      function_type_for_t env0 (callable_at fp_two_parameters 1000 100).ty =
        some fp_two_parameters ∧
      func_traits fp_two_parameters =
        some (.void_, .cons (.lref (.const_ OrderPlaced)) (.cons (.cls 4) .nil)) ∧
      dispatcher.remove.T env0 fp_two_parameters = some (.lref (.const_ OrderPlaced)) ∧
      (∃ d1, (d_with [L_ok 100]).operator_minus_eq env0
        (callable_at fp_two_parameters 1000 100) = some d1) ∧
      (d_with [L_ok 100]).operator_plus_eq env0 (callable_at fp_two_parameters 1000 100) =
        none := by
  have h0 := C13_arity_zero_rejected_by_resolution env0 (d_with [L_ok 100])
    (callable_at fp_no_parameter 1000 100) fp_no_parameter .void_ .nil (by decide) (by decide)
  have h2 := C13_arity_zero_rejected_by_resolution env0 (d_with [L_ok 100])
    (callable_at fp_two_parameters 1000 100) fp_two_parameters .void_
    (.cons (.lref (.const_ OrderPlaced)) (.cons (.cls 4) .nil)) (by decide) (by decide)
  obtain ⟨E, hE, _, hT, hrem, hsub, _⟩ := h2.2 (by decide)
  have hEq : E = .lref (.const_ OrderPlaced) := (Option.some.inj hE).symm
  subst hEq
  exact ⟨by decide, by decide, (h0.1 rfl).2.1, by decide, by decide, hT, hrem rfl,
    hsub (by decide) (by decide)⟩

/-- C15: listener equality looks at the identity alone. `a == b` holds exactly when the two
stored addresses are equal, `a == p` for a probe address `p` exactly when the stored address
is `p`; two listeners with the same address are equal whatever callables they wrap; and the
equality is reflexive, symmetric and transitive. -/
theorem C15_listener_equality_by_identity (a b c : listener V X) (p : Nat)
    (f g : V → Except X Unit) :
    (a.eq b = true ↔ a.m_addr = b.m_addr) ∧ (a.eq_addr p = true ↔ a.m_addr = p) ∧
      (listener.mk f p).eq (listener.mk g p) = true ∧
      a.eq a = true ∧ (a.eq b = true → b.eq a = true) ∧
      (a.eq b = true → b.eq c = true → a.eq c = true) := by
  refine ⟨by simp [listener.eq], by simp [listener.eq_addr], by simp [listener.eq],
    by simp [listener.eq], ?_, ?_⟩
  · intro h
    simpa [listener.eq] using (by simpa [listener.eq] using h : a.m_addr = b.m_addr).symm
  · intro h1 h2
    have e1 : a.m_addr = b.m_addr := by simpa [listener.eq] using h1
    have e2 : b.m_addr = c.m_addr := by simpa [listener.eq] using h2
    simpa [listener.eq] using e1.trans e2

/-- C16: the two-argument constructor takes the identity it is given: the listener built from
a callable and `addr` has the address `addr`, the same for every callable wherever it is
stored, and compares equal to the probe `addr`; registered through `add` it is the last
listener of its bucket and a search of the bucket for `addr` finds a listener. Only the
one-argument constructor computes the address, as `pointer_memory::address_for` of the
callable. -/
theorem C16_explicit_identity_is_kept (env : Env) (d : dispatcher V X) (T : CType)
    (c : Callable V X) (addr : Nat) (hT : signal_static_assert env T = true) :
    (listener.ctor c addr).m_addr = addr ∧ (listener.ctor c addr).eq_addr addr = true ∧
      (∀ c1 : Callable V X, (listener.ctor c1 addr).m_addr = (listener.ctor c addr).m_addr) ∧
      (listener.ctor_infer c).m_addr = pointer_memory.address_for c ∧
      ∃ d1, d.add env T (listener.ctor c addr) = some d1 ∧
        d1.bucket (typeid T) = d.bucket (typeid T) ++ [listener.ctor c addr] ∧
        find_if (fun check => check.eq_addr addr) (d1.bucket (typeid T)) ≠
          (d1.bucket (typeid T)).length := by
  refine ⟨rfl, by simp [listener.ctor, listener.eq_addr], fun _ => rfl, rfl, _,
    dispatcher.add_eq env d T _ hT, dispatcher.bucket_store_same _ _ _, ?_⟩
  rw [dispatcher.bucket_store_same]
  intro h
  rw [find_if_eq_length_iff] at h
  have := h (listener.ctor c addr) (by simp)
  simp [listener.ctor, listener.eq_addr] at this

/-- C16 at a closure stored at `700` registered with the explicit address `42`: the listener
has the address `42`, not `700`, which is what the one-argument constructor would take. -/
theorem C16_explicit_identity_is_kept_witness :
    signal_static_assert env0 OrderPlaced = true ∧
      (listener.ctor (closure_at 700 [5]) 42).m_addr = 42 ∧
      (listener.ctor_infer (closure_at 700 [5])).m_addr = 700 ∧
      ∃ d1, (dispatcher.empty : dispatcher Nat Nat).add env0 OrderPlaced
        (listener.ctor (closure_at 700 [5]) 42) = some d1 ∧
        d1.bucket OrderPlaced = [listener.ctor (closure_at 700 [5]) 42] := by
  obtain ⟨h1, _, _, _, d1, h5, h6, _⟩ :=
    C16_explicit_identity_is_kept env0 (dispatcher.empty : dispatcher Nat Nat) OrderPlaced
      (closure_at 700 [5]) 42 rfl
  exact ⟨rfl, h1, rfl, d1, h5, h6⟩

/-- C17: the search does not find every inner function. In the bind expression type
`Bind<Box<Receiver>, void (Receiver::*)(const OrderPlaced&)>` the tree of template arguments
holds a member function pointer, yet `function_in_binding` yields `nullptr_t`
(`is_function_in_binding` is false and the event type of the binding does not resolve): for a
pack whose first type is a template instantiation the primary template takes the result of
searching that instantiation and never looks at the rest of the pack. With the plain pointer
`Receiver*` in place of `Box<Receiver>` the search goes on to the rest of the pack and yields
the member function pointer. -/
theorem C17_search_stops_at_template_without_function :
    contains_function_pointer bind_box_first = true ∧
      function_in_binding bind_box_first = some .nullptr_t ∧
      is_function_in_binding bind_box_first = some false ∧
      function_wrapper.E bind_box_first = none ∧
      (dispatcher.empty : dispatcher Nat Nat).operator_plus_eq env0
        (callable_at bind_box_first 500 0) = none ∧
      contains_function_pointer bind_pointer_first = true ∧
      function_in_binding bind_pointer_first = some memfn_OrderPlaced ∧
      is_function_in_binding bind_pointer_first = some true := by
  refine ⟨by decide, by decide, by decide, by decide, ?_, by decide, by decide, by decide⟩
  have hW : function_wrapper.wrap_type env0 (callable_at bind_box_first 500 0).ty = none := by
    decide
  simp [dispatcher.operator_plus_eq, hW]

/-- C18, as stated, fails in a state where the callable is already subscribed: with the
bucket `[Lf, Lg]`, two more subscribes of `f` give `[Lf, Lg, Lf, Lf]` and a publish invokes
the handler of `f` three times, not twice; the single unsubscribe erases the first `Lf`, so
both of the two listeners just stored remain, in `[Lg, Lf, Lf]`, and a publish invokes the
handler twice, not once. -/
theorem C18_counterexample :
    (d_with [L_ok 100, L_ok 200]).operator_plus_eq env0 (fn_pointer 1000 100) =
        some (d_with [L_ok 100, L_ok 200, L_ok 100]) ∧
      (d_with [L_ok 100, L_ok 200, L_ok 100]).operator_plus_eq env0 (fn_pointer 1000 100) =
        some (d_with [L_ok 100, L_ok 200, L_ok 100, L_ok 100]) ∧
      (d_with [L_ok 100, L_ok 200, L_ok 100, L_ok 100]).dispatch env0 OrderPlaced 7 =
        some ⟨d_with [L_ok 100, L_ok 200, L_ok 100, L_ok 100],
          [(L_ok 100, 7), (L_ok 200, 7), (L_ok 100, 7), (L_ok 100, 7)], .ok ()⟩ ∧
      (d_with [L_ok 100, L_ok 200, L_ok 100, L_ok 100]).operator_minus_eq env0
        (fn_pointer 1000 100) = some (d_with [L_ok 200, L_ok 100, L_ok 100]) ∧
      (d_with [L_ok 200, L_ok 100, L_ok 100]).dispatch env0 OrderPlaced 7 =
        some ⟨d_with [L_ok 200, L_ok 100, L_ok 100],
          [(L_ok 200, 7), (L_ok 100, 7), (L_ok 100, 7)], .ok ()⟩ := by
  refine ⟨d_with_subscribe _ _ fp_OrderPlaced rfl (by decide) (by decide),
    d_with_subscribe _ _ fp_OrderPlaced rfl (by decide) (by decide), ?_,
    d_with_unsubscribe _ _ (by decide), ?_⟩
  · rw [d_with_dispatch]; rfl
  · rw [d_with_dispatch]; rfl

/-- C18, amended: subscribe does not de-duplicate. In a state where no listener of the bucket
for the event type of `C` has the identity of `C`, two subscribes of `C` are both accepted
and store two listeners with that identity at the end of the bucket; a publish that returns
normally then invokes the handler of `C` twice; a single unsubscribe of `C` leaves exactly one
of the two, and a publish that returns normally invokes it once. -/
theorem C18_subscribe_twice_stores_two (env : Env) (d : dispatcher V X) (c : Callable V X)
    (W E : CType) (hW : function_wrapper.wrap_type env c.ty = some W)
    (hE : dispatcher.wrap_add.E W = some E)
    (hacc : std_function_accepts env W E = true)
    (hs : signal_static_assert env E = true)
    (hfresh : ∀ l ∈ d.bucket (typeid E), l.m_addr ≠ pointer_memory.address_for c) :
    ∃ d1 d2 d3, d.operator_plus_eq env c = some d1 ∧ d1.operator_plus_eq env c = some d2 ∧
      d2.operator_minus_eq env c = some d3 ∧
      d2.bucket (typeid E) =
        d.bucket (typeid E) ++ [listener.of_callable c, listener.of_callable c] ∧
      (d2.bucket (typeid E)).countP (fun l => l.m_addr == pointer_memory.address_for c) = 2 ∧
      d3.bucket (typeid E) = d.bucket (typeid E) ++ [listener.of_callable c] ∧
      (d3.bucket (typeid E)).countP (fun l => l.m_addr == pointer_memory.address_for c) = 1 ∧
      ∀ T e, typeid T = typeid E → signal_static_assert env T = true →
        ∃ out2 out3, d2.dispatch env T e = some out2 ∧ d3.dispatch env T e = some out3 ∧
          (out2.result = .ok () →
            out2.trace.countP (fun p => p.1.m_addr == pointer_memory.address_for c) = 2) ∧
          (out3.result = .ok () →
            out3.trace.countP (fun p => p.1.m_addr == pointer_memory.address_for c) = 1) := by
  have hzero := countP_addr_eq_zero (d.bucket (typeid E)) (pointer_memory.address_for c) hfresh
  have h1 := dispatcher.operator_plus_eq_eq env d c W E hW hE hs hacc
  have h2 := dispatcher.operator_plus_eq_eq env
    (dispatcher.mk (d.m_listeners.store (typeid E)
      (d.bucket (typeid E) ++ [⟨c.call, pointer_memory.address_for c⟩]))) c W E hW hE hs hacc
  rw [dispatcher.bucket_store_same, Registry.store_store] at h2
  obtain ⟨T1, hT1, hkey, hfd⟩ := resolve_agree env c.ty W E hW hE
  have hs1 : signal_static_assert env T1 = true := by
    rw [signal_static_assert_congr env T1 E hfd]; exact hs
  have h3 := dispatcher.remove_eq env
    (dispatcher.mk (d.m_listeners.store (typeid E)
      (d.bucket (typeid E) ++ [⟨c.call, pointer_memory.address_for c⟩] ++
        [⟨c.call, pointer_memory.address_for c⟩]))) c T1 hT1 hs1
  rw [hkey, dispatcher.bucket_store_same, Registry.store_store] at h3
  have hfirst := find_if_first
    (fun check : listener V X => check.eq_addr (pointer_memory.address_for c))
    (d.bucket (typeid E)) [⟨c.call, pointer_memory.address_for c⟩]
    ⟨c.call, pointer_memory.address_for c⟩
    (fun y hy => by simpa [listener.eq_addr] using hfresh y hy) (by simp [listener.eq_addr])
  have happ : d.bucket (typeid E) ++ [⟨c.call, pointer_memory.address_for c⟩] ++
      [⟨c.call, pointer_memory.address_for c⟩] =
      d.bucket (typeid E) ++ (⟨c.call, pointer_memory.address_for c⟩ ::
        [⟨c.call, pointer_memory.address_for c⟩]) := by simp
  rw [happ, hfirst.1, hfirst.2] at h3
  rw [happ] at h2
  have hb2 : (dispatcher.mk (d.m_listeners.store (typeid E)
      (d.bucket (typeid E) ++ (⟨c.call, pointer_memory.address_for c⟩ ::
        [⟨c.call, pointer_memory.address_for c⟩])))).bucket (typeid E) =
      d.bucket (typeid E) ++ [listener.of_callable c, listener.of_callable c] :=
    dispatcher.bucket_store_same _ _ _
  have hb3 : (dispatcher.mk (d.m_listeners.store (typeid E)
      (d.bucket (typeid E) ++ [⟨c.call, pointer_memory.address_for c⟩]))).bucket (typeid E) =
      d.bucket (typeid E) ++ [listener.of_callable c] :=
    dispatcher.bucket_store_same _ _ _
  have hc2 : (d.bucket (typeid E) ++ [listener.of_callable c, listener.of_callable c]).countP
      (fun l => l.m_addr == pointer_memory.address_for c) = 2 := by
    simp [List.countP_append, hzero, List.countP_cons, listener.of_callable]
  have hc3 : (d.bucket (typeid E) ++ [listener.of_callable c]).countP
      (fun l => l.m_addr == pointer_memory.address_for c) = 1 := by
    simp [List.countP_append, hzero, List.countP_cons, listener.of_callable]
  refine ⟨_, _, _, h1, h2, h3, hb2, by rw [hb2]; exact hc2, hb3, by rw [hb3]; exact hc3, ?_⟩
  intro T e hTk hTs
  refine ⟨_, _, dispatcher.dispatch_eq env _ T e hTs, dispatcher.dispatch_eq env _ T e hTs,
    ?_, ?_⟩
  · intro hr
    simp only [hTk, hb2] at hr ⊢
    rw [invoke_each_ok_trace e _ hr, countP_trace]
    exact hc2
  · intro hr
    simp only [hTk, hb3] at hr ⊢
    rw [invoke_each_ok_trace e _ hr, countP_trace]
    exact hc3

/-- C18 amended, at the bucket `[L200]` and the function pointer with target address `100`:
two subscribes give `[L200, L100, L100]`, the unsubscribe gives `[L200, L100]`. -/
theorem C18_subscribe_twice_stores_two_witness :
    function_wrapper.wrap_type env0 (fn_pointer 1000 100).ty = some fp_OrderPlaced ∧
      dispatcher.wrap_add.E fp_OrderPlaced = some (.lref (.const_ OrderPlaced)) ∧
      std_function_accepts env0 fp_OrderPlaced (.lref (.const_ OrderPlaced)) = true ∧
      signal_static_assert env0 (.lref (.const_ OrderPlaced)) = true ∧
      (∀ l ∈ (d_with [L_ok 200]).bucket (typeid (.lref (.const_ OrderPlaced))),
        l.m_addr ≠ pointer_memory.address_for (fn_pointer 1000 100)) ∧
      ∃ d2 d3 : dispatcher Nat Nat, d2.operator_minus_eq env0 (fn_pointer 1000 100) = some d3 ∧
        d2.bucket OrderPlaced = [L_ok 200, L_ok 100, L_ok 100] ∧
        d3.bucket OrderPlaced = [L_ok 200, L_ok 100] := by
  have hfresh : ∀ l ∈ (d_with [L_ok 200]).bucket (typeid (.lref (.const_ OrderPlaced))),
      l.m_addr ≠ pointer_memory.address_for (fn_pointer 1000 100) := by
    intro l hl
    rw [typeid_param_OrderPlaced, d_with_bucket, List.mem_singleton] at hl
    subst hl
    decide
  obtain ⟨_, d2, d3, _, _, h3, h4, _, h6, _⟩ :=
    C18_subscribe_twice_stores_two env0 (d_with [L_ok 200]) (fn_pointer 1000 100)
      fp_OrderPlaced (.lref (.const_ OrderPlaced)) rfl (by decide) (by decide) rfl hfresh
  rw [typeid_param_OrderPlaced, d_with_bucket] at h4 h6
  exact ⟨rfl, by decide, by decide, rfl, hfresh, d2, d3, h3, h4, h6⟩

end claims

end dispatch
